import Mathlib

/-!
Verification development for the greentic-qa spec-evaluation engine
(vendor/greentic-qa/crates/qa-spec).  The Rust sources are shallowly
embedded: serde_json values become the `Json` inductive (numbers are
modelled as rationals, which agree with the source's f64 semantics on
every value the claims touch), `BTreeMap`s become sorted association
lists, and each Rust function becomes a Lean function of the same name.
-/

namespace QaSpec

/-- serde_json `Value`.  Objects are `BTreeMap<String, Value>`, embedded as
association lists kept in ascending key order by `list_insert`. -/
inductive Json where
  | null
  | bool (b : Bool)
  | num (q : Rat)
  | str (s : String)
  | arr (xs : List Json)
  | obj (fields : List (String × Json))

/-!  Rust string primitives, implemented over the character list so that
they compute by kernel reduction.  UTF-8 byte order and codepoint order
agree, so character-wise comparison matches Rust's `str` ordering. -/

/-- Lexicographic `str` comparison (`Ord for str`). -/
def chars_lt : List Char → List Char → Bool
  | [], [] => false
  | [], _ :: _ => true
  | _ :: _, [] => false
  | a :: xs, b :: ys =>
    if a.toNat < b.toNat then true
    else if b.toNat < a.toNat then false
    else chars_lt xs ys

def str_lt (a b : String) : Bool :=
  chars_lt a.data b.data

/-- Rust `str::split(sep)`: keeps empty pieces, `""` yields `[""]`. -/
def split_chars (sep : Char) : List Char → List (List Char)
  | [] => [[]]
  | c :: rest =>
    let r := split_chars sep rest
    if c = sep then [] :: r
    else
      match r with
      | [] => [[c]]
      | piece :: more => (c :: piece) :: more

def rust_split (s : String) (sep : Char) : List String :=
  (split_chars sep s.data).map String.mk

/-- Rust `str::starts_with(c)`. -/
def starts_with_char (s : String) (c : Char) : Bool :=
  match s.data with
  | [] => false
  | c' :: _ => c' = c

/-- Rust `str::trim_start_matches('/')`. -/
def trim_start_slashes (s : String) : String :=
  ⟨s.data.dropWhile (· = '/')⟩

/-- Rust `str::trim` (drops whitespace from both ends). -/
def rust_trim (s : String) : String :=
  ⟨((s.data.dropWhile Char.isWhitespace).reverse.dropWhile Char.isWhitespace).reverse⟩

/-- Rust `str::to_lowercase`, restricted to ASCII (the only case the engine
exercises: the boolean keywords `TRUE`, `Yes`, …). -/
def to_lower_str (s : String) : String :=
  ⟨s.data.map fun c =>
    if 'A'.toNat ≤ c.toNat ∧ c.toNat ≤ 'Z'.toNat then Char.ofNat (c.toNat + 32) else c⟩

def digits_value : List Char → Nat → Option Nat
  | [], acc => some acc
  | c :: rest, acc =>
    if c.isDigit then digits_value rest (acc * 10 + (c.toNat - '0'.toNat)) else none

/-- Rust `str::parse::<usize>()` (an optional leading `+`, then at least one
digit; overflow is ignored since paths never reach 2^64). -/
def parse_usize (s : String) : Option Nat :=
  match s.data with
  | [] => none
  | '+' :: rest => if rest = [] then none else digits_value rest 0
  | cs => digits_value cs 0

/-- Join pieces with `/` (Rust `Vec::join("/")`). -/
def join_slash : List String → String
  | [] => ""
  | [s] => s
  | s :: rest => s ++ "/" ++ join_slash rest

/-- Rust `str::replace(pat, to)` for the two-character patterns `~1`/`~0`
used by JSON-pointer decoding (left-to-right, non-overlapping). -/
def replace_pair (a b r : Char) : List Char → List Char
  | x :: y :: rest =>
    if x = a ∧ y = b then r :: replace_pair a b r rest
    else x :: replace_pair a b r (y :: rest)
  | xs => xs

/-- Rust `str::len()`: UTF-8 byte length. -/
def utf8_len (s : String) : Nat :=
  s.data.foldl (fun n c => n + c.utf8Size) 0

/-- `BTreeMap::get`. -/
def list_get {α : Type} : List (String × α) → String → Option α
  | [], _ => none
  | (k, v) :: rest, key => if k = key then some v else list_get rest key

/-- `BTreeMap::insert`: replaces the value at an existing key, otherwise
inserts keeping ascending key order. -/
def list_insert {α : Type} : List (String × α) → String → α → List (String × α)
  | [], key, value => [(key, value)]
  | (k, v) :: rest, key, value =>
    if str_lt key k then (key, value) :: (k, v) :: rest
    else if key = k then (key, value) :: rest
    else (k, v) :: list_insert rest key value

/-- `BTreeMap::remove` (the removed value itself is never used). -/
def list_remove {α : Type} : List (String × α) → String → List (String × α)
  | [], _ => []
  | (k, v) :: rest, key => if k = key then list_remove rest key else (k, v) :: list_remove rest key

/-- `BTreeMap::contains_key`. -/
def list_contains {α : Type} (fields : List (String × α)) (key : String) : Bool :=
  (list_get fields key).isSome

mutual

/-- Structural equality of JSON values: serde_json's `PartialEq`. -/
def Json.beq : Json → Json → Bool
  | .null, .null => true
  | .bool a, .bool b => a == b
  | .num a, .num b => a == b
  | .str a, .str b => a == b
  | .arr xs, .arr ys => Json.beqList xs ys
  | .obj xs, .obj ys => Json.beqFields xs ys
  | _, _ => false

def Json.beqList : List Json → List Json → Bool
  | [], [] => true
  | x :: xs, y :: ys => Json.beq x y && Json.beqList xs ys
  | _, _ => false

def Json.beqFields : List (String × Json) → List (String × Json) → Bool
  | [], [] => true
  | (ka, va) :: xs, (kb, vb) :: ys => ka == kb && Json.beq va vb && Json.beqFields xs ys
  | _, _ => false

end

/-- `Value::get(&str)`: key lookup, `None` on non-objects. -/
def Json.getKey : Json → String → Option Json
  | .obj fields, k => list_get fields k
  | _, _ => none

/-- `Value::get(usize)`: index lookup, `None` on non-arrays. -/
def Json.getIdx : Json → Nat → Option Json
  | .arr xs, i => xs.get? i
  | _, _ => none

def Json.isObj : Json → Bool
  | .obj _ => true
  | _ => false

/-- `Value::as_object().cloned().unwrap_or_default()`. -/
def Json.asObjFields : Json → List (String × Json)
  | .obj fields => fields
  | _ => []

/-- JSON-pointer segment decoding (`~1 → /`, then `~0 → ~`), shared by
`serde_json::Value::pointer` and `store::decode_segment`. -/
def decode_segment (segment : String) : String :=
  ⟨replace_pair '~' '0' '~' (replace_pair '~' '1' '/' segment.data)⟩

/-- serde_json's pointer array-index parsing: rejects a leading `+` and
leading zeros, otherwise `parse::<usize>`. -/
def parse_pointer_index (s : String) : Option Nat :=
  match s.data with
  | [] => none
  | ['0'] => some 0
  | '+' :: _ => none
  | '0' :: _ => none
  | cs => digits_value cs 0

/-- `serde_json::Value::pointer`. -/
def Json.pointer (v : Json) (ptr : String) : Option Json :=
  if ptr = "" then some v
  else if !starts_with_char ptr '/' then none
  else
    ((rust_split ptr '/').tail.map decode_segment).foldl
      (fun acc token => acc.bind fun cur =>
        match cur with
        | .obj fields => list_get fields token
        | .arr xs => (parse_pointer_index token).bind fun i => xs.get? i
        | _ => none)
      (some v)

/-- `Expr::normalize_pointer`: bare dotted paths become JSON pointers. -/
def normalize_pointer (path : String) : String :=
  let trimmed := rust_trim path
  if trimmed = "" then "/"
  else if starts_with_char trimmed '/' then trimmed
  else
    let cleaned := (rust_split (trim_start_slashes trimmed) '.').filter (· ≠ "")
    "/" ++ join_slash cleaned

/-- `Expr::fetch_nested`: a leading `/` means JSON pointer, otherwise dotted
segments with pure-digit segments used as array indices. -/
def fetch_nested (value : Json) (path : String) : Option Json :=
  if starts_with_char path '/' then value.pointer path
  else
    (rust_split path '.').foldl
      (fun acc segment =>
        if segment = "" then acc
        else acc.bind fun cur =>
          match parse_usize segment with
          | some i => cur.getIdx i
          | none => cur.getKey segment)
      (some value)

/-- `Expr::lookup` (the `Var` address form). -/
def lookup_var (ctx : Json) (path : String) : Option Json :=
  ctx.pointer (normalize_pointer path)

/-- `Expr::lookup_answer` (the `Answer`/`IsSet` address form). -/
def lookup_answer (ctx : Json) (path : String) : Option Json :=
  match ctx.getKey "answers" with
  | some value => fetch_nested value path
  | none => fetch_nested ctx path

/-- The expression AST (`expr.rs`). -/
inductive Expr where
  | literal (value : Json)
  | var (path : String)
  | answer (path : String)
  | isSet (path : String)
  | and (expressions : List Expr)
  | or (expressions : List Expr)
  | not (expression : Expr)
  | eq (left : Expr) (right : Expr)
  | ne (left : Expr) (right : Expr)
  | lt (left : Expr) (right : Expr)
  | lte (left : Expr) (right : Expr)
  | gt (left : Expr) (right : Expr)
  | gte (left : Expr) (right : Expr)

/-- The boolean-coercion match inside `Expr::evaluate_bool`.  (Numbers: the
source tests `as_f64() != 0.0`; `as_f64` is total on JSON numbers.) -/
def coerce_bool : Json → Option Bool
  | .bool b => some b
  | .num q => some (decide (q ≠ 0))
  | .str s =>
    match to_lower_str s with
    | "true" | "t" | "yes" | "y" | "1" => some true
    | "false" | "f" | "no" | "n" | "0" => some false
    | _ => none
  | .null => some false
  | _ => none

/-- `Expr::compare_values`: numbers by numeric order (`f64::partial_cmp`,
total on JSON numbers), strings lexicographically, other equal values
compare equal, mismatches yield `none`. -/
def compare_values (left right : Json) : Option Ordering :=
  match left, right with
  | .num a, .num b => some (compare a b)
  | .str a, .str b => some (compare a b)
  | a, b => if Json.beq a b then some Ordering.eq else none

mutual

/-- `Expr::evaluate_value`.  The comparison arms inline the source's
`evaluate_compare(predicate)` helper, one predicate per operator. -/
def Expr.evaluate_value : Expr → Json → Option Json
  | .literal v, _ => some v
  | .var path, ctx => lookup_var ctx path
  | .answer path, ctx => lookup_answer ctx path
  | .isSet path, ctx => some (.bool (lookup_answer ctx path).isSome)
  | .and es, ctx => evaluate_and_loop es ctx false
  | .or es, ctx => evaluate_or_loop es ctx false
  | .not e, ctx => ((Expr.evaluate_value e ctx).bind coerce_bool).map (fun b => .bool !b)
  | .eq l r, ctx =>
    (Expr.evaluate_value l ctx).bind fun lv =>
      (Expr.evaluate_value r ctx).map fun rv => .bool (Json.beq lv rv)
  | .ne l r, ctx =>
    (Expr.evaluate_value l ctx).bind fun lv =>
      (Expr.evaluate_value r ctx).map fun rv => .bool (!(Json.beq lv rv))
  | .lt l r, ctx =>
    (Expr.evaluate_value l ctx).bind fun lv =>
      (Expr.evaluate_value r ctx).bind fun rv =>
        (compare_values lv rv).map fun o => .bool (o == Ordering.lt)
  | .lte l r, ctx =>
    (Expr.evaluate_value l ctx).bind fun lv =>
      (Expr.evaluate_value r ctx).bind fun rv =>
        (compare_values lv rv).map fun o => .bool (o == Ordering.lt || o == Ordering.eq)
  | .gt l r, ctx =>
    (Expr.evaluate_value l ctx).bind fun lv =>
      (Expr.evaluate_value r ctx).bind fun rv =>
        (compare_values lv rv).map fun o => .bool (o == Ordering.gt)
  | .gte l r, ctx =>
    (Expr.evaluate_value l ctx).bind fun lv =>
      (Expr.evaluate_value r ctx).bind fun rv =>
        (compare_values lv rv).map fun o => .bool (o == Ordering.gt || o == Ordering.eq)

/-- The loop body of `Expr::evaluate_and` with its `seen_none` flag. -/
def evaluate_and_loop : List Expr → Json → Bool → Option Json
  | [], _, seenNone => if seenNone then none else some (.bool true)
  | e :: rest, ctx, seenNone =>
    match (Expr.evaluate_value e ctx).bind coerce_bool with
    | some false => some (.bool false)
    | some true => evaluate_and_loop rest ctx seenNone
    | none => evaluate_and_loop rest ctx true

/-- The loop body of `Expr::evaluate_or` with its `seen_none` flag. -/
def evaluate_or_loop : List Expr → Json → Bool → Option Json
  | [], _, seenNone => if seenNone then none else some (.bool false)
  | e :: rest, ctx, seenNone =>
    match (Expr.evaluate_value e ctx).bind coerce_bool with
    | some true => some (.bool true)
    | some false => evaluate_or_loop rest ctx seenNone
    | none => evaluate_or_loop rest ctx true

end

/-- `Expr::evaluate_bool`: evaluate, then coerce. -/
def Expr.evaluate_bool (e : Expr) (ctx : Json) : Option Bool :=
  (e.evaluate_value ctx).bind coerce_bool

/-! ## Secrets (`secrets.rs`) -/

/-- `SecretsPolicy` (`spec/form.rs`). -/
structure SecretsPolicy where
  enabled : Bool
  read_enabled : Bool
  write_enabled : Bool
  allow : List String
  deny : List String

inductive SecretAction where
  | read
  | write

inductive SecretAccessResult where
  | allowed
  | denied (code : String)
  | hostUnavailable

/-- Modelled from the external `globset` crate, per the spec: shell-glob
matching, case-sensitive, `*` (and `?`) match within a path segment only.
Invalid patterns (which `Glob::new` would reject) do not occur in this
development.  The fuel argument bounds the `*` backtracking; every step
shortens the pattern or the key, so `|pattern| + |key| + 1` never runs out. -/
def glob_match_fuel : Nat → List Char → List Char → Bool
  | 0, _, _ => false
  | _ + 1, [], [] => true
  | f + 1, '*' :: ps, ks =>
    glob_match_fuel f ps ks ||
      (match ks with
       | [] => false
       | c :: ks' => decide (c ≠ '/') && glob_match_fuel f ('*' :: ps) ks')
  | f + 1, '?' :: ps, c :: ks => decide (c ≠ '/') && glob_match_fuel f ps ks
  | f + 1, p :: ps, c :: ks => decide (p = c) && glob_match_fuel f ps ks
  | _ + 1, _, _ => false

/-- `secrets::matches_pattern`. -/
def matches_pattern (pattern key : String) : Bool :=
  glob_match_fuel (pattern.data.length + key.data.length + 1) pattern.data key.data

/-- `secrets::matches_any`. -/
def matches_any (patterns : List String) (key : String) : Bool :=
  patterns.any fun pattern => matches_pattern pattern key

/-- `secrets::evaluate`: the policy gate for one key/action. -/
def evaluate (policy : Option SecretsPolicy) (key : String) (action : SecretAction)
    (host_available : Bool) : SecretAccessResult :=
  match policy with
  | some p =>
    if p.enabled then
      let enabled :=
        match action with
        | .read => p.read_enabled
        | .write => p.write_enabled
      if !enabled then .denied "secret_access_denied"
      else if matches_any p.deny key then .denied "secret_access_denied"
      else if p.allow.isEmpty || !matches_any p.allow key then .denied "secret_access_denied"
      else if !host_available then .hostUnavailable
      else .allowed
    else .denied "secret_access_denied"
  | none => .denied "secret_access_denied"

/-! ## Store (`store.rs`) -/

inductive StoreTarget where
  | answers
  | state
  | config
  | payloadOut
  | secrets
  deriving DecidableEq

/-- A single store operation. -/
structure StoreOp where
  target : StoreTarget
  path : String
  value : Json

/-- The context mutated by store operations. -/
structure StoreContext where
  answers : Json
  state : Json
  config : Json
  payload_out : Json
  secrets : Json

/-- Errors raised while applying store operations.  The denial code is a
`&'static str` in the source. -/
inductive StoreError where
  | invalidPointer (pointer : String)
  | secretAccessDenied (key : String) (code : String)
  | secretHostUnavailable

/-- `StoreContext::from_value`. -/
def store_context_from_value (ctx : Json) : StoreContext :=
  { answers := (ctx.getKey "answers").getD (.obj [])
    state := (ctx.getKey "state").getD (.obj [])
    config := (ctx.getKey "config").getD (.obj [])
    payload_out := (ctx.getKey "payload_out").getD (.obj [])
    secrets := (ctx.getKey "secrets").getD (.obj []) }

/-- `StoreContext::to_value` (a `serde_json::Map` iterates its keys in
ascending order, hence the insertions below). -/
def store_context_to_value (ctx : StoreContext) : Json :=
  .obj (list_insert (list_insert (list_insert (list_insert (list_insert []
    "answers" ctx.answers) "state" ctx.state) "config" ctx.config)
    "payload_out" ctx.payload_out) "secrets" ctx.secrets)

/-- `store::ensure_object`: a non-object slot is silently replaced by an
empty object; returns the object's fields. -/
def ensure_object_fields (v : Json) : List (String × Json) :=
  v.asObjFields

/-- The indexed loop of `store::set_path`, over the already-split segments.
Falling out of the loop (an empty segment list) produces `InvalidPointer`;
splitting a string always yields at least one segment, so that branch is
unreachable from `set_path`. -/
def set_segments (root : Json) (segs : List String) (value : Json) (pointer : String) :
    Except StoreError Json :=
  match segs with
  | [] => .error (.invalidPointer pointer)
  | [last] => .ok (.obj (list_insert (ensure_object_fields root) last value))
  | seg :: rest =>
    let fields := ensure_object_fields root
    let child := (list_get fields seg).getD (.obj [])
    match set_segments child rest value pointer with
    | .ok c => .ok (.obj (list_insert fields seg c))
    | .error e => .error e

/-- `store::set_path`. -/
def set_path (root : Json) (pointer : String) (value : Json) : Except StoreError Json :=
  if pointer = "" then .ok value
  else
    set_segments root ((rust_split (trim_start_slashes pointer) '/').map decode_segment)
      value pointer

/-- `store::secret_key`. -/
def secret_key (pointer : String) : Except StoreError String :=
  let trimmed := trim_start_slashes pointer
  if trimmed = "" then .error (.invalidPointer pointer)
  else .ok trimmed

/-- One iteration of the `StoreContext::apply_ops` loop.  In the source a
failing iteration returns before mutating `self`, so it is faithful to make
the iteration atomic: `ok` carries the updated context, `error` leaves it. -/
def apply_op (ctx : StoreContext) (op : StoreOp) (policy : Option SecretsPolicy)
    (host_available : Bool) : Except StoreError StoreContext :=
  match op.target with
  | .answers => (set_path ctx.answers op.path op.value).map fun a => { ctx with answers := a }
  | .state => (set_path ctx.state op.path op.value).map fun s => { ctx with state := s }
  | .config => (set_path ctx.config op.path op.value).map fun c => { ctx with config := c }
  | .payloadOut =>
    (set_path ctx.payload_out op.path op.value).map fun p => { ctx with payload_out := p }
  | .secrets =>
    match secret_key op.path with
    | .error e => .error e
    | .ok key =>
      match evaluate policy key .write host_available with
      | .allowed => (set_path ctx.secrets op.path op.value).map fun s => { ctx with secrets := s }
      | .denied code => .error (.secretAccessDenied key code)
      | .hostUnavailable => .error .secretHostUnavailable

/-- `StoreContext::apply_ops`.  The source mutates `self` and returns
`Result<(), StoreError>`; here the pair carries the context as left behind
by the loop together with the optional error. -/
def apply_ops (ctx : StoreContext) (ops : List StoreOp) (policy : Option SecretsPolicy)
    (host_available : Bool) : StoreContext × Option StoreError :=
  match ops with
  | [] => (ctx, none)
  | op :: rest =>
    match apply_op ctx op policy host_available with
    | .ok ctx' => apply_ops ctx' rest policy host_available
    | .error e => (ctx, some e)

/-! ## Spec model (`spec/question.rs`, `spec/form.rs`, `spec/validation.rs`,
`i18n.rs`) -/

/-- `I18nText`: key plus optional interpolation arguments
(`BTreeMap<String, Value>`, embedded as a sorted association list). -/
structure I18nText where
  key : String
  args : Option (List (String × Json))

/-- Supported question data types. -/
inductive QuestionType where
  | string
  | boolean
  | integer
  | number
  | enum
  | list
  deriving DecidableEq

/-- Per-question constraints (`min`/`max` are `f64` in the source, embedded
as rationals). -/
structure Constraint where
  pattern : Option String
  min : Option Rat
  max : Option Rat
  min_len : Option Nat
  max_len : Option Nat

/-- Per-question progress overrides. -/
structure QuestionPolicy where
  skip_if_present_in : List StoreTarget
  editable_if_from_default : Bool

mutual

/-- `QuestionSpec`.  It nests `ListSpec`, whose entry fields are themselves
question specs, so the pair is a mutual inductive; field projections are
defined below. -/
inductive QuestionSpec where
  | mk (id : String) (kind : QuestionType) (title : String) (title_i18n : Option I18nText)
      (description : Option String) (description_i18n : Option I18nText) (required : Bool)
      (choices : Option (List String)) (default_value : Option String) (secret : Bool)
      (visible_if : Option Expr) (constraint : Option Constraint) (list : Option ListSpec)
      (computed : Option Expr) (policy : QuestionPolicy) (computed_overridable : Bool)

/-- `ListSpec`: a repeatable group whose entries reuse question specs. -/
inductive ListSpec where
  | mk (min_items : Option Nat) (max_items : Option Nat) (fields : List QuestionSpec)

end

def QuestionSpec.id : QuestionSpec → String
  | .mk x _ _ _ _ _ _ _ _ _ _ _ _ _ _ _ => x

def QuestionSpec.kind : QuestionSpec → QuestionType
  | .mk _ x _ _ _ _ _ _ _ _ _ _ _ _ _ _ => x

def QuestionSpec.title : QuestionSpec → String
  | .mk _ _ x _ _ _ _ _ _ _ _ _ _ _ _ _ => x

def QuestionSpec.title_i18n : QuestionSpec → Option I18nText
  | .mk _ _ _ x _ _ _ _ _ _ _ _ _ _ _ _ => x

def QuestionSpec.description : QuestionSpec → Option String
  | .mk _ _ _ _ x _ _ _ _ _ _ _ _ _ _ _ => x

def QuestionSpec.description_i18n : QuestionSpec → Option I18nText
  | .mk _ _ _ _ _ x _ _ _ _ _ _ _ _ _ _ => x

def QuestionSpec.required : QuestionSpec → Bool
  | .mk _ _ _ _ _ _ x _ _ _ _ _ _ _ _ _ => x

def QuestionSpec.choices : QuestionSpec → Option (List String)
  | .mk _ _ _ _ _ _ _ x _ _ _ _ _ _ _ _ => x

def QuestionSpec.default_value : QuestionSpec → Option String
  | .mk _ _ _ _ _ _ _ _ x _ _ _ _ _ _ _ => x

def QuestionSpec.secret : QuestionSpec → Bool
  | .mk _ _ _ _ _ _ _ _ _ x _ _ _ _ _ _ => x

def QuestionSpec.visible_if : QuestionSpec → Option Expr
  | .mk _ _ _ _ _ _ _ _ _ _ x _ _ _ _ _ => x

def QuestionSpec.constraint : QuestionSpec → Option Constraint
  | .mk _ _ _ _ _ _ _ _ _ _ _ x _ _ _ _ => x

def QuestionSpec.list : QuestionSpec → Option ListSpec
  | .mk _ _ _ _ _ _ _ _ _ _ _ _ x _ _ _ => x

def QuestionSpec.computed : QuestionSpec → Option Expr
  | .mk _ _ _ _ _ _ _ _ _ _ _ _ _ x _ _ => x

def QuestionSpec.policy : QuestionSpec → QuestionPolicy
  | .mk _ _ _ _ _ _ _ _ _ _ _ _ _ _ x _ => x

def QuestionSpec.computed_overridable : QuestionSpec → Bool
  | .mk _ _ _ _ _ _ _ _ _ _ _ _ _ _ _ x => x

def ListSpec.min_items : ListSpec → Option Nat
  | .mk x _ _ => x

def ListSpec.max_items : ListSpec → Option Nat
  | .mk _ x _ => x

def ListSpec.fields : ListSpec → List QuestionSpec
  | .mk _ _ x => x

/-- Presentation hints for a form. -/
structure FormPresentation where
  intro : Option String
  theme : Option String
  default_locale : Option String

/-- Navigation policies shared by progress evaluation. -/
structure ProgressPolicy where
  skip_answered : Bool
  autofill_defaults : Bool
  treat_default_as_answered : Bool

/-- The source's `Default for ProgressPolicy`. -/
def progress_policy_default : ProgressPolicy :=
  { skip_answered := true, autofill_defaults := false, treat_default_as_answered := false }

/-- Include reference (source field `prefix` is named `pfx` here). -/
structure IncludeSpec where
  form_ref : String
  pfx : Option String

/-- Cross-question validation rule. -/
structure CrossFieldValidation where
  id : Option String
  message : String
  fields : List String
  condition : Expr
  code : Option String

/-- Top-level form definition. -/
structure FormSpec where
  id : String
  title : String
  version : String
  description : Option String
  presentation : Option FormPresentation
  progress_policy : Option ProgressPolicy
  secrets_policy : Option SecretsPolicy
  store : List StoreOp
  validations : List CrossFieldValidation
  includes : List IncludeSpec
  questions : List QuestionSpec

/-- Validation error metadata (`answers.rs`). -/
structure ValidationError where
  question_id : Option String
  path : Option String
  message : String
  code : Option String

/-- Result returned from `validate` (`answers.rs`). -/
structure ValidationResult where
  valid : Bool
  errors : List ValidationError
  missing_required : List String
  unknown_fields : List String

/-! ## Computed answers (`computed.rs`) -/

/-- `computed::build_expression_context`: every top-level answer key plus an
`answers` alias for the whole map. -/
def build_expression_context (answers : Json) : Json :=
  let base := answers.asObjFields.foldl (fun m kv => list_insert m kv.1 kv.2) []
  .obj (list_insert base "answers" answers)

/-- One iteration of the `apply_computed_answers` loop. -/
def computed_step (map : List (String × Json)) (question : QuestionSpec) :
    List (String × Json) :=
  match question.computed with
  | none => map
  | some expr =>
    if list_contains map question.id && question.computed_overridable then map
    else
      let context := build_expression_context (.obj map)
      match expr.evaluate_value context with
      | some value => list_insert map question.id value
      | none => list_remove map question.id

/-- `computed::apply_computed_answers`. -/
def apply_computed_answers (spec : FormSpec) (answers : Json) : Json :=
  .obj (spec.questions.foldl computed_step answers.asObjFields)

/-! ## Visibility (`visibility.rs`) -/

abbrev VisibilityMap := List (String × Bool)

inductive VisibilityMode where
  | visible
  | hidden
  | error

/-- `visibility::resolve_visibility`. -/
def resolve_visibility (spec : FormSpec) (answers : Json) (mode : VisibilityMode) :
    VisibilityMap :=
  let ctx := build_expression_context answers
  spec.questions.foldl
    (fun map question =>
      let visible :=
        match question.visible_if with
        | some expr =>
          match expr.evaluate_bool ctx with
          | some val => val
          | none =>
            match mode with
            | .visible => true
            | .hidden => false
            | .error => true
        | none => true
      list_insert map question.id visible)
    []

/-! ## Progress (`progress.rs`) -/

/-- Runtime state for progress evaluation. -/
structure ProgressContext where
  answers : List (String × Json)
  config : Json
  state : Json
  payload_out : Json
  secrets : Json

/-- `ProgressContext::new`. -/
def progress_context_new (answers : Json) (ctx : Json) : ProgressContext :=
  { answers := answers.asObjFields
    config := (ctx.getKey "config").getD (.obj [])
    state := (ctx.getKey "state").getD (.obj [])
    payload_out := (ctx.getKey "payload_out").getD (.obj [])
    secrets := (ctx.getKey "secrets").getD (.obj []) }

/-- `ProgressContext::has_target`. -/
def has_target (ctx : ProgressContext) (target : StoreTarget) (key : String) : Bool :=
  match target with
  | .answers => list_contains ctx.answers key
  | .config => (ctx.config.getKey key).isSome
  | .state => (ctx.state.getKey key).isSome
  | .payloadOut => (ctx.payload_out.getKey key).isSome
  | .secrets => (ctx.secrets.getKey key).isSome

/-- `progress::is_answered`. -/
def is_answered (question : QuestionSpec) (ctx : ProgressContext)
    (policy : Option ProgressPolicy) : Bool :=
  let has_answer := list_contains ctx.answers question.id
  let defaults_policy := policy.getD progress_policy_default
  if has_answer then true
  else if defaults_policy.autofill_defaults && question.default_value.isSome then
    if question.policy.editable_if_from_default then false
    else defaults_policy.treat_default_as_answered
  else false

/-- `progress::should_skip`. -/
def should_skip (question : QuestionSpec) (ctx : ProgressContext)
    (policy : ProgressPolicy) : Bool :=
  if question.policy.skip_if_present_in.any (fun target => has_target ctx target question.id)
  then true
  else if policy.skip_answered && is_answered question ctx (some policy) then true
  else false

/-- The iteration of `progress::next_question` over the questions. -/
def next_question_loop (questions : List QuestionSpec) (ctx : ProgressContext)
    (visibility : VisibilityMap) (policy : ProgressPolicy) : Option String :=
  match questions with
  | [] => none
  | question :: rest =>
    if !((list_get visibility question.id).getD true) then
      next_question_loop rest ctx visibility policy
    else if should_skip question ctx policy then
      next_question_loop rest ctx visibility policy
    else
      some question.id

/-- `progress::next_question`. -/
def next_question (spec : FormSpec) (ctx : ProgressContext)
    (visibility : VisibilityMap) : Option String :=
  next_question_loop spec.questions ctx visibility (spec.progress_policy.getD progress_policy_default)

/-- `ProgressContext::answered_count`. -/
def answered_count (ctx : ProgressContext) (spec : FormSpec)
    (visibility : VisibilityMap) : Nat :=
  (spec.questions.filter fun question =>
    ((list_get visibility question.id).getD true) &&
      is_answered question ctx spec.progress_policy).length

/-! ## Validation (`validate.rs`) -/

def Json.as_str : Json → Option String
  | .str s => some s
  | _ => none

def Json.as_f64 : Json → Option Rat
  | .num q => some q
  | _ => none

def Json.as_array : Json → Option (List Json)
  | .arr xs => some xs
  | _ => none

def Json.as_object : Json → Option (List (String × Json))
  | .obj fields => some fields
  | _ => none

def Json.is_string : Json → Bool
  | .str _ => true
  | _ => false

def Json.is_boolean : Json → Bool
  | .bool _ => true
  | _ => false

/-- serde `is_i64`: an integral number (values beyond i64 range do not occur
in this development). -/
def Json.is_i64 : Json → Bool
  | .num q => q.den = 1
  | _ => false

def Json.is_number : Json → Bool
  | .num _ => true
  | _ => false

def Json.is_array : Json → Bool
  | .arr _ => true
  | _ => false

/-- `validate::matches_type`. -/
def matches_type (question : QuestionSpec) (value : Json) : Bool :=
  match question.kind with
  | .string | .enum => value.is_string
  | .boolean => value.is_boolean
  | .integer => value.is_i64
  | .number => value.is_number
  | .list => value.is_array

def chars_prefix : List Char → List Char → Bool
  | [], _ => true
  | _ :: _, [] => false
  | p :: ps, c :: cs => p = c && chars_prefix ps cs

def chars_sub (pat : List Char) : List Char → Bool
  | [] => chars_prefix pat []
  | c :: rest => chars_prefix pat (c :: rest) || chars_sub pat rest

/-- Modelled from the spec: the external `regex` crate backs the `pattern`
constraint.  Only the anchored-literal fragment the spec exercises
(`^body$`, `^body`, `body$`, plain substring `body`) is implemented;
invalid patterns (`Regex::new` errors, which the source skips) do not
occur in this development. -/
def regex_is_match (pattern text : String) : Bool :=
  let ps := pattern.data
  let startAnchor := match ps with
    | '^' :: _ => true
    | _ => false
  let ps := if startAnchor then ps.tail else ps
  let endAnchor := match ps.reverse with
    | '$' :: _ => true
    | _ => false
  let body := if endAnchor then ps.reverse.tail.reverse else ps
  let cs := text.data
  match startAnchor, endAnchor with
  | true, true => decide (body = cs)
  | true, false => chars_prefix body cs
  | false, true => chars_prefix body.reverse cs.reverse
  | false, false => chars_sub body cs

/-- `validate::base_error`. -/
def base_error (question : QuestionSpec) (message code : String) : ValidationError :=
  { question_id := some question.id
    path := some ("/" ++ question.id)
    message := message
    code := some code }

/-- `validate::list_count_error`. -/
def list_count_error (question : QuestionSpec) (threshold actual : Nat)
    (message code : String) : ValidationError :=
  { question_id := some question.id
    path := some ("/" ++ question.id)
    message := message ++ " (expected " ++ toString threshold ++ ", got " ++ toString actual ++ ")"
    code := some code }

/-- `validate::list_entry_type_error`. -/
def list_entry_type_error (question : QuestionSpec) (idx : Nat) : ValidationError :=
  { question_id := some question.id
    path := some ("/" ++ question.id ++ "/" ++ toString idx)
    message := "list entry must be an object"
    code := some "entry_type" }

/-- `validate::list_not_array_error`. -/
def list_not_array_error (question : QuestionSpec) : ValidationError :=
  { question_id := some question.id
    path := some ("/" ++ question.id)
    message := "list value must be an array"
    code := some "list_type" }

/-- `validate::list_field_missing_error`. -/
def list_field_missing_error (question : QuestionSpec) (idx : Nat) (field_id : String) :
    ValidationError :=
  { question_id := some (question.id ++ "[" ++ toString idx ++ "]." ++ field_id)
    path := some ("/" ++ question.id ++ "/" ++ toString idx ++ "/" ++ field_id)
    message := "field '" ++ field_id ++ "' is required"
    code := some "missing_field" }

/-- `validate::apply_list_context`. -/
def apply_list_context (question : QuestionSpec) (idx : Nat) (field : QuestionSpec)
    (error : ValidationError) : ValidationError :=
  { error with
    question_id := some (question.id ++ "[" ++ toString idx ++ "]." ++ field.id)
    path := some ("/" ++ question.id ++ "/" ++ toString idx ++ "/" ++ field.id) }

/-- `validate::enforce_constraint`: the source's chain of early returns. -/
def enforce_constraint (question : QuestionSpec) (value : Json)
    (constraint : Constraint) : Option ValidationError :=
  let pattern_err := match constraint.pattern, value.as_str with
    | some pattern, some text =>
      if !regex_is_match pattern text then
        some (base_error question "value does not match pattern" "pattern_mismatch")
      else none
    | _, _ => none
  match pattern_err with
  | some e => some e
  | none =>
    let min_len_err := match constraint.min_len, value.as_str with
      | some min_len, some text =>
        if utf8_len text < min_len then
          some (base_error question "string shorter than min length" "min_length")
        else none
      | _, _ => none
    match min_len_err with
    | some e => some e
    | none =>
      let max_len_err := match constraint.max_len, value.as_str with
        | some max_len, some text =>
          if utf8_len text > max_len then
            some (base_error question "string longer than max length" "max_length")
          else none
        | _, _ => none
      match max_len_err with
      | some e => some e
      | none =>
        let min_err := match constraint.min, value.as_f64 with
          | some min, some v =>
            if v < min then some (base_error question "value below minimum" "min") else none
          | _, _ => none
        match min_err with
        | some e => some e
        | none =>
          match constraint.max, value.as_f64 with
          | some max, some v =>
            if v > max then some (base_error question "value above maximum" "max") else none
          | _, _ => none

mutual

/-- `validate::validate_value`: type check, then list check, then
constraint, then enum membership; the first failure wins. -/
def validate_value (question : QuestionSpec) (value : Json) : Option ValidationError :=
  if !matches_type question value then
    some (base_error question "type mismatch" "type_mismatch")
  else
    match (if question.kind = .list then validate_list question value else none) with
    | some error => some error
    | none =>
      match (match question.constraint with
             | some c => enforce_constraint question value c
             | none => none) with
      | some error => some error
      | none =>
        match question.kind, question.choices, value.as_str with
        | .enum, some choices, some text =>
          if !choices.contains text then
            some (base_error question "invalid enum option" "enum_mismatch")
          else none
        | _, _, _ => none
termination_by (sizeOf question, 3, 0)

/-- `validate::validate_list`. -/
def validate_list : QuestionSpec → Json → Option ValidationError
  | question@(.mk _ _ _ _ _ _ _ _ _ _ _ _ none _ _ _), _ =>
    some (base_error question "list fields are not defined" "missing_list_definition")
  | question@(.mk _ _ _ _ _ _ _ _ _ _ _ _ (some (.mk min_items max_items fields)) _ _ _),
      value =>
    match value.as_array with
    | none => some (list_not_array_error question)
    | some items =>
      let min_err := match min_items with
        | some m =>
          if items.length < m then
            some (list_count_error question m items.length "not enough list entries" "min_items")
          else none
        | none => none
      match min_err with
      | some e => some e
      | none =>
        let max_err := match max_items with
          | some m =>
            if items.length > m then
              some (list_count_error question m items.length "too many list entries" "max_items")
            else none
          | none => none
        match max_err with
        | some e => some e
        | none => validate_entries question fields 0 items
termination_by question _ => (sizeOf question, 2, 0)

/-- The entry loop of `validate_list` (`for (idx, entry) in items`). -/
def validate_entries (question : QuestionSpec) (fields : List QuestionSpec) (idx : Nat)
    (items : List Json) : Option ValidationError :=
  match items with
  | [] => none
  | entry :: rest =>
    match entry.as_object with
    | none => some (list_entry_type_error question idx)
    | some entry_map =>
      match validate_fields question idx entry_map fields with
      | some error => some error
      | none => validate_entries question fields (idx + 1) rest
termination_by (sizeOf fields, 1, items.length)

/-- The field loop of `validate_list` (`for field in &list.fields`). -/
def validate_fields (question : QuestionSpec) (idx : Nat)
    (entry_map : List (String × Json)) : List QuestionSpec → Option ValidationError
  | [] => none
  | field :: rest =>
    match list_get entry_map field.id with
    | none =>
      if field.required then some (list_field_missing_error question idx field.id)
      else validate_fields question idx entry_map rest
    | some field_value =>
      match validate_value field field_value with
      | some error => some (apply_list_context question idx field error)
      | none => validate_fields question idx entry_map rest
termination_by fields => (sizeOf fields, 0, 0)

end

/-- The per-question loop of `validate::validate`, producing the `errors`
and `missing_required` vectors in iteration order. -/
def validate_questions_loop
    (visibility : VisibilityMap) (answers_map : List (String × Json)) :
    List QuestionSpec → List ValidationError × List String
  | [] => ([], [])
  | question :: rest =>
    let head : List ValidationError × List String :=
      if !((list_get visibility question.id).getD true) then ([], [])
      else
        match list_get answers_map question.id with
        | none => if question.required then ([], [question.id]) else ([], [])
        | some value =>
          match validate_value question value with
          | some error => ([error], [])
          | none => ([], [])
    let tail := validate_questions_loop visibility answers_map rest
    (head.1 ++ tail.1, head.2 ++ tail.2)

/-- The cross-field loop of `validate::validate`: a condition evaluating to
exactly `Some(true)` appends an error. -/
def cross_field_errors (ctx : Json) : List CrossFieldValidation → List ValidationError
  | [] => []
  | validation :: rest =>
    let head : List ValidationError :=
      match validation.condition.evaluate_bool ctx with
      | some true =>
        [{ question_id := (validation.fields.head?).orElse (fun _ => validation.id)
           path := validation.fields.head?.map (fun field => "/" ++ field)
           message := validation.message
           code := validation.code }]
      | _ => []
    head ++ cross_field_errors ctx rest

/-- `validate::validate`. -/
def validate (spec : FormSpec) (answers : Json) : ValidationResult :=
  let computed_answers := apply_computed_answers spec answers
  let visibility := resolve_visibility spec computed_answers .visible
  let answers_map := computed_answers.asObjFields
  let qres := validate_questions_loop visibility answers_map spec.questions
  let all_ids := spec.questions.map QuestionSpec.id
  let unknown_fields := (answers_map.map Prod.fst).filter (fun key => !all_ids.contains key)
  let ctx := build_expression_context computed_answers
  let errors := qres.1 ++ cross_field_errors ctx spec.validations
  { valid := errors.isEmpty && qres.2.isEmpty && unknown_fields.isEmpty
    errors := errors
    missing_required := qres.2
    unknown_fields := unknown_fields }

/-! ## Answers schema (`answers_schema.rs`) -/

mutual

/-- `answers_schema::question_schema`.  A serde `Map` is a `BTreeMap`, so
the inserted keys come out in ascending order, which `list_insert`
reproduces. -/
def question_schema : QuestionSpec → Json
  | .mk _ kind _ _ _ _ _ choices default_value secret _ constraint listOpt _ _ _ =>
    let schema : List (String × Json) :=
      match kind, listOpt with
      | .string, _ => list_insert [] "type" (.str "string")
      | .boolean, _ => list_insert [] "type" (.str "boolean")
      | .integer, _ => list_insert [] "type" (.str "integer")
      | .number, _ => list_insert [] "type" (.str "number")
      | .enum, _ =>
        let s := list_insert [] "type" (.str "string")
        (match choices with
         | some cs => list_insert s "enum" (.arr (cs.map Json.str))
         | none => s)
      | .list, some (.mk min_items max_items fields) =>
        let s := list_insert [] "type" (.str "array")
        let s := match min_items with
          | some m => list_insert s "minItems" (.num m)
          | none => s
        let s := match max_items with
          | some m => list_insert s "maxItems" (.num m)
          | none => s
        let fs := fields_schemas fields ([], [])
        let item_schema := list_insert [] "type" (.str "object")
        let item_schema := list_insert item_schema "properties" (.obj fs.1)
        let item_schema :=
          if fs.2.isEmpty then item_schema
          else list_insert item_schema "required" (.arr fs.2)
        list_insert s "items" (.obj item_schema)
      | .list, none =>
        let s := list_insert [] "type" (.str "array")
        list_insert s "items" (.obj [])
    let schema := match constraint with
      | some c =>
        let s := match c.pattern with
          | some p => list_insert schema "pattern" (.str p)
          | none => schema
        let s := match c.min with
          | some m => list_insert s "minimum" (.num m)
          | none => s
        let s := match c.max with
          | some m => list_insert s "maximum" (.num m)
          | none => s
        let s := match c.min_len with
          | some m => list_insert s "minLength" (.num m)
          | none => s
        match c.max_len with
        | some m => list_insert s "maxLength" (.num m)
        | none => s
      | none => schema
    let schema := match default_value with
      | some d => list_insert schema "default" (.str d)
      | none => schema
    let schema := if secret then list_insert schema "x-secret" (.bool true) else schema
    .obj schema
termination_by question => (sizeOf question, 1)

/-- The field loop inside the `List` arm of `question_schema`, accumulating
item properties and the required-field names in field order. -/
def fields_schemas : List QuestionSpec →
    List (String × Json) × List Json → List (String × Json) × List Json
  | [], acc => acc
  | field :: rest, acc =>
    fields_schemas rest
      (list_insert acc.1 field.id (question_schema field),
       acc.2 ++ (if field.required then [.str field.id] else []))
termination_by fields _ => (sizeOf fields, 0)

end

/-- `answers_schema::generate`. -/
def answers_schema_generate (spec : FormSpec) (visibility : VisibilityMap) : Json :=
  let acc := spec.questions.foldl
    (fun (acc : List (String × Json) × List Json) question =>
      if !((list_get visibility question.id).getD true) then acc
      else
        (list_insert acc.1 question.id (question_schema question),
         acc.2 ++ (if question.required then [Json.str question.id] else [])))
    ([], [])
  let root := list_insert [] "type" (.str "object")
  let root := list_insert root "properties" (.obj acc.1)
  let root := if acc.2.isEmpty then root else list_insert root "required" (.arr acc.2)
  .obj root

/-! ## i18n resolution (`i18n.rs`) -/

/-- `i18n::resolve_by_locale`: `locale:key`, then `locale/key`, for the
requested then the default locale, then the bare key. -/
def resolve_by_locale (resolved : List (String × String)) (key : String)
    (requested_locale default_locale : Option String) : Option String :=
  let step := fun (locale : String) =>
    match list_get resolved (locale ++ ":" ++ key) with
    | some v => some v
    | none => list_get resolved (locale ++ "/" ++ key)
  match (match requested_locale with | some l => step l | none => none) with
  | some v => some v
  | none =>
    match (match default_locale with | some l => step l | none => none) with
    | some v => some v
    | none => list_get resolved key

/-- serde's integer-vs-float display split for `Number::to_string` (floats
print a decimal point; the exact float digits are not exercised here). -/
def rat_to_string (q : Rat) : String :=
  if q.den = 1 then toString q.num else toString q

def escape_json_chars : List Char → List Char
  | [] => []
  | '"' :: rest => '\\' :: '"' :: escape_json_chars rest
  | '\\' :: rest => '\\' :: '\\' :: escape_json_chars rest
  | '\n' :: rest => '\\' :: 'n' :: escape_json_chars rest
  | '\t' :: rest => '\\' :: 't' :: escape_json_chars rest
  | '\r' :: rest => '\\' :: 'r' :: escape_json_chars rest
  | c :: rest => c :: escape_json_chars rest

mutual

/-- `serde_json::Value::to_string`: compact serialization.  (Control-char
escapes other than the common ones are not exercised here.) -/
def Json.to_compact : Json → String
  | .null => "null"
  | .bool b => if b then "true" else "false"
  | .num q => rat_to_string q
  | .str s => "\"" ++ (⟨escape_json_chars s.data⟩ : String) ++ "\""
  | .arr xs => "[" ++ Json.to_compact_list xs ++ "]"
  | .obj fields => "\x7b" ++ Json.to_compact_fields fields ++ "\x7d"

def Json.to_compact_list : List Json → String
  | [] => ""
  | [x] => Json.to_compact x
  | x :: rest => Json.to_compact x ++ "," ++ Json.to_compact_list rest

def Json.to_compact_fields : List (String × Json) → String
  | [] => ""
  | [(k, v)] => "\"" ++ (⟨escape_json_chars k.data⟩ : String) ++ "\":" ++ Json.to_compact v
  | (k, v) :: rest =>
    "\"" ++ (⟨escape_json_chars k.data⟩ : String) ++ "\":" ++ Json.to_compact v ++ "," ++
      Json.to_compact_fields rest

end

/-- `i18n::interpolate_args`: replaces each `\x7bname\x7d` token; string
arguments verbatim, other JSON stringified. -/
def interpolate_args (template : String) (args : Option (List (String × Json))) : String :=
  match args with
  | none => template
  | some list =>
    list.foldl
      (fun output kv =>
        let token := "\x7b" ++ kv.1 ++ "\x7d"
        let value_text := match kv.2 with
          | .str v => v
          | v => v.to_compact
        output.replace token value_text)
      template

/-- `i18n::resolve_i18n_text_with_locale`. -/
def resolve_i18n_text_with_locale (fallback : String) (text : Option I18nText)
    (resolved : Option (List (String × String)))
    (requested_locale default_locale : Option String) : String :=
  match text with
  | none => fallback
  | some text =>
    match resolved with
    | none => fallback
    | some resolved =>
      match resolve_by_locale resolved text.key requested_locale default_locale with
      | none => fallback
      | some base => interpolate_args base text.args

/-- `i18n::resolve_i18n_text`. -/
def resolve_i18n_text (fallback : String) (text : Option I18nText)
    (resolved : Option (List (String × String))) : String :=
  resolve_i18n_text_with_locale fallback text resolved none none

/-! ## Render payload (`render.rs`) -/

inductive RenderStatus where
  | needInput
  | complete
  | error

structure RenderProgress where
  answered : Nat
  total : Nat

structure RenderQuestion where
  id : String
  title : String
  description : Option String
  title_i18n_key : Option String
  description_i18n_key : Option String
  kind : QuestionType
  required : Bool
  default : Option String
  secret : Bool
  visible : Bool
  current_value : Option Json
  choices : Option (List String)
  list : Option ListSpec

structure RenderPayload where
  form_id : String
  form_title : String
  form_version : String
  status : RenderStatus
  next_question_id : Option String
  progress : RenderProgress
  help : Option String
  questions : List RenderQuestion
  schema : Json

/-- `render::resolve_description`. -/
def resolve_description (fallback : Option String) (text : Option I18nText)
    (resolved : Option (List (String × String)))
    (requested_locale default_locale : Option String) : Option String :=
  match fallback, text with
  | some raw, t =>
    some (resolve_i18n_text_with_locale raw t resolved requested_locale default_locale)
  | none, some i18n_text =>
    let resolved_text := resolve_i18n_text_with_locale i18n_text.key (some i18n_text)
      resolved requested_locale default_locale
    if resolved_text ≠ i18n_text.key then some resolved_text else some i18n_text.key
  | none, none => none

/-- `render::build_render_payload_with_i18n`. -/
def build_render_payload_with_i18n (spec : FormSpec) (ctx : Json) (answers : Json)
    (resolved_i18n : Option (List (String × String))) : RenderPayload :=
  let computed_answers := apply_computed_answers spec answers
  let visibility := resolve_visibility spec computed_answers .visible
  let progress_ctx := progress_context_new computed_answers ctx
  let next_question_id := next_question spec progress_ctx visibility
  let answered := answered_count progress_ctx spec visibility
  let total := (visibility.filter (fun kv => kv.2)).length
  let requested_locale := (ctx.getKey "locale").bind Json.as_str
  let default_locale := spec.presentation.bind (fun p => p.default_locale)
  let questions := spec.questions.map fun question =>
    ({ id := question.id
       title := resolve_i18n_text_with_locale question.title question.title_i18n
         resolved_i18n requested_locale default_locale
       description := resolve_description question.description question.description_i18n
         resolved_i18n requested_locale default_locale
       title_i18n_key := question.title_i18n.map (fun t => t.key)
       description_i18n_key := question.description_i18n.map (fun t => t.key)
       kind := question.kind
       required := question.required
       default := question.default_value
       secret := question.secret
       visible := (list_get visibility question.id).getD true
       current_value := computed_answers.getKey question.id
       choices := question.choices
       list := question.list } : RenderQuestion)
  let help := (spec.presentation.bind (fun p => p.intro)).orElse (fun _ => spec.description)
  let schema := answers_schema_generate spec visibility
  let status := if next_question_id.isSome then RenderStatus.needInput else RenderStatus.complete
  { form_id := spec.id
    form_title := spec.title
    form_version := spec.version
    status := status
    next_question_id := next_question_id
    progress := { answered := answered, total := total }
    help := help
    questions := questions
    schema := schema }

/-- `render::build_render_payload`. -/
def build_render_payload (spec : FormSpec) (ctx : Json) (answers : Json) : RenderPayload :=
  build_render_payload_with_i18n spec ctx answers none

/-! ## Runner (`runner.rs`) -/

/-- Versioned deterministic plan produced by the planners. -/
structure QaPlanV1 where
  plan_version : Nat
  form_id : String
  validated_patch : Json
  validation : ValidationResult
  payload : RenderPayload
  effects : List StoreOp
  warnings : List String
  errors : List String

/-- `QaPlanV1::is_valid`. -/
def QaPlanV1.is_valid (plan : QaPlanV1) : Bool :=
  plan.validation.valid

/-- `runner::build_plan`. -/
def build_plan (spec : FormSpec) (ctx : Json) (answers : Json) : QaPlanV1 :=
  let validation := validate spec answers
  let payload := build_render_payload spec ctx answers
  let effects := if validation.valid then spec.store else []
  let errors :=
    if validation.valid then []
    else
      (validation.errors.map fun error => (error.path.getD "") ++ ": " ++ error.message)
        ++ (validation.missing_required.map fun field => "missing required: " ++ field)
        ++ (validation.unknown_fields.map fun field => "unknown field: " ++ field)
  { plan_version := 1
    form_id := spec.id
    validated_patch := answers
    validation := validation
    payload := payload
    effects := effects
    warnings := []
    errors := errors }

/-- `runner::plan_submit_patch`: merge the single patch entry into the
answer object, then delegate. -/
def plan_submit_patch (spec : FormSpec) (ctx : Json) (answers : Json)
    (question_id : String) (value : Json) : QaPlanV1 :=
  let patched := list_insert answers.asObjFields question_id value
  build_plan spec ctx (.obj patched)

/-- `runner::plan_submit_all`. -/
def plan_submit_all (spec : FormSpec) (ctx : Json) (answers : Json) : QaPlanV1 :=
  build_plan spec ctx answers

/-- `runner::normalize_answers`. -/
def normalize_answers (answers : Json) : Json :=
  .obj answers.asObjFields

/-- `runner::plan_next`. -/
def plan_next (spec : FormSpec) (ctx : Json) (answers : Json) : QaPlanV1 :=
  build_plan spec ctx (normalize_answers answers)

/-- `runner::execute_plan_effects`: no-op on invalid plans, otherwise set
`store_ctx.answers` to the validated patch and apply the effects.  The pair
carries the context alongside the source's `Result<(), StoreError>`. -/
def execute_plan_effects (plan : QaPlanV1) (store_ctx : StoreContext)
    (secrets_policy : Option SecretsPolicy) (secrets_host_available : Bool) :
    StoreContext × Option StoreError :=
  if !plan.is_valid then (store_ctx, none)
  else
    apply_ops { store_ctx with answers := plan.validated_patch } plan.effects
      secrets_policy secrets_host_available

/-! ## Include composition (`compose.rs`) -/

inductive IncludeError where
  | missingIncludeTarget (form_ref : String)
  | includeCycleDetected (chain : List String)
  | duplicateQuestionId (question_id : String)

/-- `compose::prefix_key`. -/
def prefix_key (pfx key : String) : String :=
  if pfx = "" then key else pfx ++ "." ++ key

/-- `compose::prefix_path`: empty paths, absolute paths and empty prefixes
are unchanged. -/
def prefix_path (pfx path : String) : String :=
  if path = "" || starts_with_char path '/' || pfx = "" then path
  else pfx ++ "." ++ path

mutual

/-- `compose::prefix_expr`: prefixes `Answer`/`IsSet` paths, recursing
through the logical and comparison nodes; `Literal`/`Var` are unchanged. -/
def prefix_expr : Expr → String → Expr
  | .answer path, pfx => .answer (prefix_path pfx path)
  | .isSet path, pfx => .isSet (prefix_path pfx path)
  | .and es, pfx => .and (prefix_expr_list es pfx)
  | .or es, pfx => .or (prefix_expr_list es pfx)
  | .not e, pfx => .not (prefix_expr e pfx)
  | .eq l r, pfx => .eq (prefix_expr l pfx) (prefix_expr r pfx)
  | .ne l r, pfx => .ne (prefix_expr l pfx) (prefix_expr r pfx)
  | .lt l r, pfx => .lt (prefix_expr l pfx) (prefix_expr r pfx)
  | .lte l r, pfx => .lte (prefix_expr l pfx) (prefix_expr r pfx)
  | .gt l r, pfx => .gt (prefix_expr l pfx) (prefix_expr r pfx)
  | .gte l r, pfx => .gte (prefix_expr l pfx) (prefix_expr r pfx)
  | other, _ => other

def prefix_expr_list : List Expr → String → List Expr
  | [], _ => []
  | e :: rest, pfx => prefix_expr e pfx :: prefix_expr_list rest pfx

end

/-- `compose::apply_prefix_validation`. -/
def apply_prefix_validation (validation : CrossFieldValidation) (pfx : String) :
    CrossFieldValidation :=
  if pfx = "" then validation
  else
    { validation with
      id := validation.id.map (prefix_key pfx)
      fields := validation.fields.map (prefix_key pfx)
      condition := prefix_expr validation.condition pfx }

mutual

/-- `compose::apply_prefix_question`: prefixes the id, the `visible_if` and
`computed` expressions, and recursively the nested list fields. -/
def apply_prefix_question (question : QuestionSpec) (pfx : String) : QuestionSpec :=
  if pfx = "" then question
  else
    match question with
    | .mk id kind title ti de di req cho dv sec vi con listOpt comp pol ov =>
      .mk (prefix_key pfx id) kind title ti de di req cho dv sec
        (vi.map (fun e => prefix_expr e pfx)) con
        (match listOpt with
         | some (.mk mi ma fields) => some (.mk mi ma (apply_prefix_fields fields pfx))
         | none => none)
        (comp.map (fun e => prefix_expr e pfx)) pol ov

def apply_prefix_fields : List QuestionSpec → String → List QuestionSpec
  | [], _ => []
  | f :: rest, pfx => apply_prefix_question f pfx :: apply_prefix_fields rest pfx

end

/-- `compose::combine_prefix` (renamed to fit the file's lexical
conventions). -/
def combine_prefix_parts (parent : String) (child : Option String) : String :=
  if parent = "" then
    if (child.getD "") = "" then "" else child.getD ""
  else if (child.getD "") = "" then parent
  else parent ++ "." ++ child.getD ""

/-- The question loop of `compose::expand_form`: prefix each question and
insert its id into the seen set, failing on duplicates. -/
def insert_questions (pfx : String) :
    List QuestionSpec → List String → Except IncludeError (List QuestionSpec × List String)
  | [], seen => .ok ([], seen)
  | question :: rest, seen =>
    let question := apply_prefix_question question pfx
    if seen.contains question.id then .error (.duplicateQuestionId question.id)
    else
      match insert_questions pfx rest (question.id :: seen) with
      | .ok (qs, seen') => .ok (question :: qs, seen')
      | .error e => .error e

mutual

/-- `compose::expand_form`.  The source recursion is bounded because the
visited chain strictly grows inside the finite set of form ids (the root's
plus one per registry entry): entering a form whose id is already on the
chain errors out first.  The `fuel` argument makes that bound explicit;
with the initial fuel `registry.length + 1` the zero-fuel branch is
unreachable.  The chain is threaded by value (the source pushes on entry
and pops on exit), and the seen-id set is threaded through. -/
def expand_form_fuel (fuel : Nat) (form : FormSpec) (pfx : String)
    (registry : List (String × FormSpec)) (chain : List String) (seen : List String) :
    Except IncludeError (FormSpec × List String) :=
  if chain.contains form.id then
    let start := chain.indexOf form.id
    .error (.includeCycleDetected ((chain.drop start) ++ [form.id]))
  else
    match fuel with
    | 0 => .error (.includeCycleDetected [])
    | fuel + 1 =>
      match insert_questions pfx form.questions seen with
      | .error e => .error e
      | .ok (questions, seen) =>
        let validations := form.validations.map (fun v => apply_prefix_validation v pfx)
        match expand_includes_loop fuel form.includes pfx registry (chain ++ [form.id])
            seen questions validations with
        | .error e => .error e
        | .ok (questions, validations, seen) =>
          let out :=
            { form with questions := questions, validations := validations, includes := [] }
          .ok (out, seen)
termination_by (fuel, 0)

/-- The include loop of `compose::expand_form`. -/
def expand_includes_loop (fuel : Nat) (includes : List IncludeSpec) (pfx : String)
    (registry : List (String × FormSpec)) (chain : List String) (seen : List String)
    (questions : List QuestionSpec) (validations : List CrossFieldValidation) :
    Except IncludeError (List QuestionSpec × List CrossFieldValidation × List String) :=
  match includes with
  | [] => .ok (questions, validations, seen)
  | inc :: rest =>
    match list_get registry inc.form_ref with
    | none => .error (.missingIncludeTarget inc.form_ref)
    | some included =>
      let nested_pfx := combine_prefix_parts pfx inc.pfx
      match expand_form_fuel fuel included nested_pfx registry chain seen with
      | .error e => .error e
      | .ok (expanded, seen') =>
        expand_includes_loop fuel rest pfx registry chain seen'
          (questions ++ expanded.questions) (validations ++ expanded.validations)
termination_by (fuel, includes.length + 1)

end

/-- `compose::expand_includes`. -/
def expand_includes (root : FormSpec) (registry : List (String × FormSpec)) :
    Except IncludeError FormSpec :=
  match expand_form_fuel (registry.length + 1) root "" registry [] [] with
  | .ok (form, _) => .ok form
  | .error e => .error e

/-! ## Specification-side reformulations and concrete fixtures -/

/-- The spec's description of next-question selection under the default
progress policy: the first question in authored order that is visible,
whose id is present in none of its `skip_if_present_in` targets, and whose
id is not an answer key. -/
def next_question_spec_default (spec : FormSpec) (ctx : ProgressContext)
    (visibility : VisibilityMap) : Option String :=
  (spec.questions.find? fun q =>
    ((list_get visibility q.id).getD true)
      && !(q.policy.skip_if_present_in.any fun target => has_target ctx target q.id)
      && !(list_contains ctx.answers q.id)).map QuestionSpec.id

/-- A question with every optional field empty. -/
def base_question (id : String) (kind : QuestionType) : QuestionSpec :=
  .mk id kind "" none none none false none none false none none none none ⟨[], false⟩ false

/-- A required variant of `base_question`. -/
def required_question (id : String) (kind : QuestionType) : QuestionSpec :=
  .mk id kind "" none none none true none none false none none none none ⟨[], false⟩ false

/-- A form with every optional field empty and no questions. -/
def empty_form (id : String) : FormSpec :=
  { id := id, title := "", version := "1", description := none, presentation := none
    progress_policy := none, secrets_policy := none, store := [], validations := []
    includes := [], questions := [] }

/-- An all-empty store context. -/
def store_ctx0 : StoreContext :=
  ⟨.obj [], .obj [], .obj [], .obj [], .obj []⟩

/-- A self-referential computed question: `q1` is computed from
`IsSet("q1")`, which flips between applications. -/
def c5_question : QuestionSpec :=
  .mk "q1" .boolean "" none none none false none none false none none none
    (some (.isSet "q1")) ⟨[], false⟩ false

def c5_spec : FormSpec :=
  { empty_form "f" with questions := [c5_question] }

/-- An overridable computed question with a constant expression. -/
def c5_ok_question : QuestionSpec :=
  .mk "q1" .boolean "" none none none false none none false none none none
    (some (.literal (.bool true))) ⟨[], false⟩ true

def c5_ok_spec : FormSpec :=
  { empty_form "f" with questions := [c5_ok_question] }

/-- A `String`-kind question carrying a `choices` list. -/
def c8_string_question : QuestionSpec :=
  .mk "q1" .string "" none none none false (some ["a"]) none false none none none none
    ⟨[], false⟩ false

def c8_string_spec : FormSpec :=
  { empty_form "f" with questions := [c8_string_question] }

/-- An `Enum`-kind question with choices `["a", "b"]`. -/
def c8_enum_question : QuestionSpec :=
  .mk "q1" .enum "" none none none false (some ["a", "b"]) none false none none none none
    ⟨[], false⟩ false

def c8_enum_spec : FormSpec :=
  { empty_form "f" with questions := [c8_enum_question] }

/-- Mutually including forms whose root carries a duplicated question id. -/
def c7_dup_a : FormSpec :=
  { empty_form "a" with
    includes := [⟨"b", none⟩]
    questions := [base_question "x" .string, base_question "x" .string] }

def c7_b : FormSpec :=
  { empty_form "b" with includes := [⟨"a", none⟩] }

/-- Mutually including forms with no questions at all. -/
def c7_a : FormSpec :=
  { empty_form "a" with includes := [⟨"b", none⟩] }

/-! ## Theorems -/

/-- C1: for every plan whose `validation.valid` is false,
`execute_plan_effects` returns `Ok` and leaves the store context (all of
answers, state, config, payload_out, secrets) unchanged, for any secrets
policy and any host-availability flag. -/
theorem C1_invalid_plan_is_noop (plan : QaPlanV1) (store_ctx : StoreContext)
    (policy : Option SecretsPolicy) (host : Bool)
    (h : plan.validation.valid = false) :
    execute_plan_effects plan store_ctx policy host = (store_ctx, none) := by
  simp [execute_plan_effects, QaPlanV1.is_valid, h]

/-- Witness for C1: a submit-all plan missing a required answer is invalid,
and executing it changes nothing. -/
theorem C1_invalid_plan_is_noop_witness :
    execute_plan_effects
      (plan_submit_all { empty_form "f" with questions := [required_question "q1" .string] }
        .null (.obj []))
      store_ctx0 none true = (store_ctx0, none) :=
  C1_invalid_plan_is_noop _ _ _ _ (by rfl)

/-- C10: `plan_next` and `plan_submit_all` agree on every JSON-object
answer value, because `normalize_answers` is the identity there; on
non-objects `plan_next` substitutes the empty object. -/
theorem C10_plan_next_eq_plan_submit_all (spec : FormSpec) (ctx : Json) (answers : Json) :
    (answers.isObj = true →
      normalize_answers answers = answers ∧
      plan_next spec ctx answers = plan_submit_all spec ctx answers) ∧
    (answers.isObj = false →
      plan_next spec ctx answers = plan_submit_all spec ctx (.obj [])) := by
  constructor
  · intro h
    cases answers with
    | obj fields => exact ⟨rfl, rfl⟩
    | null => simp [Json.isObj] at h
    | bool b => simp [Json.isObj] at h
    | num q => simp [Json.isObj] at h
    | str s => simp [Json.isObj] at h
    | arr xs => simp [Json.isObj] at h
  · intro h
    cases answers with
    | obj fields => simp [Json.isObj] at h
    | null => rfl
    | bool b => rfl
    | num q => rfl
    | str s => rfl
    | arr xs => rfl

/-- Witness for C10 at the empty answer object. -/
theorem C10_plan_next_eq_plan_submit_all_witness :
    plan_next (empty_form "f") .null (.obj []) =
      plan_submit_all (empty_form "f") .null (.obj []) :=
  ((C10_plan_next_eq_plan_submit_all (empty_form "f") .null (.obj [])).1 rfl).2

/-- C3: when `apply_ops` fails, the returned error belongs to the first op
that fails, every op before it has been applied (the returned context is
exactly the fold over the prefix), and the failing op itself has not
mutated anything: the context accompanying the error is the pre-op one. -/
theorem C3_first_failure (ctx ctx' : StoreContext) (ops : List StoreOp)
    (policy : Option SecretsPolicy) (host : Bool) (e : StoreError)
    (h : apply_ops ctx ops policy host = (ctx', some e)) :
    ∃ pre op suf, ops = pre ++ op :: suf ∧
      apply_ops ctx pre policy host = (ctx', none) ∧
      apply_op ctx' op policy host = .error e := by
  induction ops generalizing ctx with
  | nil => simp [apply_ops] at h
  | cons op rest ih =>
    cases hop : apply_op ctx op policy host with
    | ok ctx2 =>
      simp only [apply_ops, hop] at h
      obtain ⟨pre, op', suf, h1, h2, h3⟩ := ih ctx2 h
      refine ⟨op :: pre, op', suf, by rw [h1]; rfl, ?_, h3⟩
      simp only [apply_ops, hop]
      exact h2
    | error e2 =>
      simp only [apply_ops, hop] at h
      injection h with hA hB
      injection hB with hB
      subst hA
      exact ⟨[], op, rest, rfl, rfl, by rw [hop, hB]⟩

/-- Witness for C3: an answers write succeeds, then a secrets write is
denied under an absent policy; the error is the second op's and the first
op's effect is present. -/
theorem C3_first_failure_witness :
    ∃ pre op suf,
      [(⟨StoreTarget.answers, "/a", Json.bool true⟩ : StoreOp),
       ⟨StoreTarget.secrets, "/k", Json.null⟩] = pre ++ op :: suf ∧
      apply_ops store_ctx0 pre none true =
        (⟨.obj [("a", .bool true)], .obj [], .obj [], .obj [], .obj []⟩, none) ∧
      apply_op ⟨.obj [("a", .bool true)], .obj [], .obj [], .obj [], .obj []⟩ op none true =
        .error (.secretAccessDenied "k" "secret_access_denied") :=
  C3_first_failure store_ctx0 _ _ none true _ (by rfl)

/-- Splitting a character list always yields at least one piece. -/
theorem split_chars_ne_nil (sep : Char) (cs : List Char) : split_chars sep cs ≠ [] := by
  induction cs with
  | nil => simp [split_chars]
  | cons c rest ih =>
    simp only [split_chars]
    split
    · simp
    · cases h : split_chars sep rest with
      | nil => simp
      | cons piece more => simp

/-- `set_segments` succeeds on every non-empty segment list. -/
theorem set_segments_ok (segs : List String) (root value : Json) (ptr : String)
    (h : segs ≠ []) : ∃ r, set_segments root segs value ptr = .ok r := by
  induction segs generalizing root with
  | nil => exact absurd rfl h
  | cons s rest ih =>
    cases rest with
    | nil => exact ⟨_, rfl⟩
    | cons s2 r2 =>
      obtain ⟨r, hr⟩ := ih ((list_get (ensure_object_fields root) s).getD (.obj []))
        (List.cons_ne_nil _ _)
      exact ⟨.obj (list_insert (ensure_object_fields root) s r),
        by simp only [set_segments, hr]⟩

/-- `set_path` never fails. -/
theorem set_path_ok (root : Json) (ptr : String) (value : Json) :
    ∃ r, set_path root ptr value = .ok r := by
  unfold set_path
  split
  · exact ⟨value, rfl⟩
  · exact set_segments_ok _ _ _ _ (by
      simp only [ne_eq, List.map_eq_nil_iff]
      intro hc
      exact split_chars_ne_nil '/' _ (by simpa [rust_split, List.map_eq_nil_iff] using hc))

/-- A non-secrets op always applies successfully. -/
theorem apply_op_non_secret_ok (ctx : StoreContext) (op : StoreOp)
    (policy : Option SecretsPolicy) (host : Bool)
    (h : op.target ≠ StoreTarget.secrets) :
    ∃ ctx2, apply_op ctx op policy host = .ok ctx2 := by
  cases htgt : op.target with
  | answers =>
    obtain ⟨r, hr⟩ := set_path_ok ctx.answers op.path op.value
    exact ⟨{ ctx with answers := r }, by simp [apply_op, htgt, hr, Except.map]⟩
  | state =>
    obtain ⟨r, hr⟩ := set_path_ok ctx.state op.path op.value
    exact ⟨{ ctx with state := r }, by simp [apply_op, htgt, hr, Except.map]⟩
  | config =>
    obtain ⟨r, hr⟩ := set_path_ok ctx.config op.path op.value
    exact ⟨{ ctx with config := r }, by simp [apply_op, htgt, hr, Except.map]⟩
  | payloadOut =>
    obtain ⟨r, hr⟩ := set_path_ok ctx.payload_out op.path op.value
    exact ⟨{ ctx with payload_out := r }, by simp [apply_op, htgt, hr, Except.map]⟩
  | secrets => exact absurd htgt h

/-- C9: operations on the answers/state/config/payload_out targets can never
fail — the `InvalidPointer` branch of `set_path` is unreachable (every split
yields a segment), the empty pointer replaces the whole target, and a
non-object root is silently replaced by an empty object before the write. -/
theorem C9_non_secret_ops_never_fail :
    (∀ ctx ops policy host, (∀ op ∈ ops, op.target ≠ StoreTarget.secrets) →
      (apply_ops ctx ops policy host).2 = none) ∧
    (∀ root value, set_path root "" value = .ok value) ∧
    (∀ root pointer value, root.isObj = false →
      set_path root pointer value = set_path (.obj []) pointer value) := by
  refine ⟨?_, ?_, ?_⟩
  · intro ctx ops policy host h
    induction ops generalizing ctx with
    | nil => rfl
    | cons op rest ih =>
      obtain ⟨ctx2, hop⟩ := apply_op_non_secret_ok ctx op policy host
        (h op (by simp))
      simp only [apply_ops, hop]
      exact ih ctx2 (fun o ho => h o (by simp [ho]))
  · intro root value
    rfl
  · intro root pointer value hroot
    have hfields : ensure_object_fields root = ensure_object_fields (.obj []) := by
      cases root <;> simp_all [ensure_object_fields, Json.asObjFields, Json.isObj]
    unfold set_path
    split
    · rfl
    · cases hsegs : (rust_split (trim_start_slashes pointer) '/').map decode_segment with
      | nil => rfl
      | cons s rest =>
        cases rest with
        | nil => simp [set_segments, hfields]
        | cons s2 r2 => simp [set_segments, hfields]

/-- Witness for C9: two non-secret ops (one with an empty pointer) apply
without error. -/
theorem C9_non_secret_ops_never_fail_witness :
    (apply_ops store_ctx0
      [⟨StoreTarget.state, "/s/t", .num 1⟩, ⟨StoreTarget.payloadOut, "", .bool false⟩]
      none false).2 = none :=
  C9_non_secret_ops_never_fail.1 store_ctx0 _ none false (by decide)

/-- C2 counterexample: a secrets op whose path trims to an empty key (here
`"/"`) fails with `InvalidPointer` under an absent policy — not with
`SecretAccessDenied` as the claim states for every secrets op. -/
theorem C2_counterexample :
    (apply_ops store_ctx0 [⟨StoreTarget.secrets, "/", .null⟩] none true).2 =
      some (.invalidPointer "/") ∧
    ¬ ∃ key code,
      (apply_ops store_ctx0 [⟨StoreTarget.secrets, "/", .null⟩] none true).2 =
        some (.secretAccessDenied key code) := by
  refine ⟨rfl, ?_⟩
  rintro ⟨key, code, hc⟩
  rw [show (apply_ops store_ctx0 [⟨StoreTarget.secrets, "/", .null⟩] none true).2 =
    some (.invalidPointer "/") from rfl] at hc
  simp at hc

/-- The host-unavailable outcome of `evaluate`, characterised for a present
policy: every check passes and the host flag is down. -/
theorem evaluate_host_unavailable_iff (p : SecretsPolicy) (key : String)
    (action : SecretAction) (host : Bool) :
    evaluate (some p) key action host = .hostUnavailable ↔
      (p.enabled = true ∧
       (match action with
        | SecretAction.read => p.read_enabled
        | SecretAction.write => p.write_enabled) = true ∧
       matches_any p.deny key = false ∧
       p.allow ≠ [] ∧ matches_any p.allow key = true ∧
       host = false) := by
  unfold evaluate
  cases action with
  | read =>
    by_cases hp : p.enabled
    · by_cases hen : p.read_enabled
      · by_cases hdeny : matches_any p.deny key
        · simp [hp, hen, hdeny]
        · by_cases hempty : p.allow.isEmpty
          · simp [hp, hen, hdeny, hempty, List.isEmpty_iff.mp hempty]
          · by_cases hmatch : matches_any p.allow key
            · by_cases hhost : host
              · simp [hp, hen, hdeny, hempty, hmatch, hhost]
              · simp only [List.isEmpty_iff] at hempty
                simp [hp, hen, hdeny, hempty, hmatch, hhost]
            · simp [hp, hen, hdeny, hempty, hmatch]
      · simp [hp, hen]
    · simp [hp]
  | write =>
    by_cases hp : p.enabled
    · by_cases hen : p.write_enabled
      · by_cases hdeny : matches_any p.deny key
        · simp [hp, hen, hdeny]
        · by_cases hempty : p.allow.isEmpty
          · simp [hp, hen, hdeny, hempty, List.isEmpty_iff.mp hempty]
          · by_cases hmatch : matches_any p.allow key
            · by_cases hhost : host
              · simp [hp, hen, hdeny, hempty, hmatch, hhost]
              · simp only [List.isEmpty_iff] at hempty
                simp [hp, hen, hdeny, hempty, hmatch, hhost]
            · simp [hp, hen, hdeny, hempty, hmatch]
      · simp [hp, hen]
    · simp [hp]

/-- C2 (amended): for a secrets op whose path holds a non-empty key, an
absent or disabled policy makes `apply_ops` fail with
`SecretAccessDenied("secret_access_denied")` regardless of the host flag;
`evaluate` returns `HostUnavailable` exactly when enablement, the action
flag, the deny globs and the non-empty-allow check all pass and the host is
unavailable; and `apply_ops` reports `SecretHostUnavailable` only in that
situation. -/
theorem C2_secret_policy_gate :
    (∀ ctx op policy host, op.target = StoreTarget.secrets →
      trim_start_slashes op.path ≠ "" →
      (policy = none ∨ ∃ p, policy = some p ∧ p.enabled = false) →
      apply_ops ctx [op] policy host =
        (ctx, some (.secretAccessDenied (trim_start_slashes op.path) "secret_access_denied"))) ∧
    (∀ policy key action host, evaluate policy key action host = .hostUnavailable ↔
      ∃ p, policy = some p ∧ p.enabled = true ∧
        (match action with
         | SecretAction.read => p.read_enabled
         | SecretAction.write => p.write_enabled) = true ∧
        matches_any p.deny key = false ∧
        p.allow ≠ [] ∧ matches_any p.allow key = true ∧
        host = false) ∧
    (∀ ctx op policy host, op.target = StoreTarget.secrets →
      (apply_ops ctx [op] policy host).2 = some .secretHostUnavailable →
      evaluate policy (trim_start_slashes op.path) .write host = .hostUnavailable) := by
  refine ⟨?_, ?_, ?_⟩
  · intro ctx op policy host htgt hkey hpol
    have hsk : secret_key op.path = .ok (trim_start_slashes op.path) := by
      unfold secret_key
      simp [hkey]
    have hev : evaluate policy (trim_start_slashes op.path) .write host =
        .denied "secret_access_denied" := by
      rcases hpol with h | ⟨p, hp, hen⟩
      · rw [h]
        rfl
      · rw [hp]
        unfold evaluate
        simp [hen]
    simp [apply_ops, apply_op, htgt, hsk, hev]
  · intro policy key action host
    cases policy with
    | none =>
      simp [evaluate]
    | some p =>
      rw [evaluate_host_unavailable_iff]
      constructor
      · rintro ⟨h1, h2, h3, h4, h5, h6⟩
        exact ⟨p, rfl, h1, h2, h3, h4, h5, h6⟩
      · rintro ⟨p', hp', h1, h2, h3, h4, h5, h6⟩
        injection hp' with hp'
        subst hp'
        exact ⟨h1, h2, h3, h4, h5, h6⟩
  · intro ctx op policy host htgt h2
    cases hop : apply_op ctx op policy host with
    | ok c2 =>
      simp [apply_ops, hop] at h2
    | error e =>
      simp only [apply_ops, hop] at h2
      injection h2 with h2
      subst h2
      by_cases hk : trim_start_slashes op.path = ""
      · have hsk : secret_key op.path = .error (.invalidPointer op.path) := by
          unfold secret_key
          simp [hk]
        simp only [apply_op, htgt, hsk] at hop
        injection hop with hop
        simp at hop
      · have hsk : secret_key op.path = .ok (trim_start_slashes op.path) := by
          unfold secret_key
          simp [hk]
        cases hev : evaluate policy (trim_start_slashes op.path) .write host with
        | allowed =>
          obtain ⟨r, hr⟩ := set_path_ok ctx.secrets op.path op.value
          simp only [apply_op, htgt, hsk, hev, hr, Except.map] at hop
          simp at hop
        | denied code =>
          simp only [apply_op, htgt, hsk, hev] at hop
          injection hop with hop
          simp at hop
        | hostUnavailable => rfl

/-- Witness for C2 (amended): an absent policy denies a write to
`aws/key` even though the host is down. -/
theorem C2_secret_policy_gate_witness :
    apply_ops store_ctx0 [⟨StoreTarget.secrets, "/aws/key", .null⟩] none false =
      (store_ctx0, some (.secretAccessDenied "aws/key" "secret_access_denied")) :=
  C2_secret_policy_gate.1 store_ctx0 _ none false rfl (by decide) (Or.inl rfl)

/-- Characterisation of the `evaluate_and` loop for any `seen_none` flag:
`false` wins outright, `none` needs a `none` (or the flag) and no `false`,
and `true` needs a clean flag and all-`true`. -/
theorem evaluate_and_loop_spec (ctx : Json) : ∀ (es : List Expr) (seen : Bool),
    (evaluate_and_loop es ctx seen = some (.bool false) ↔
      ∃ x ∈ es, (x.evaluate_value ctx).bind coerce_bool = some false) ∧
    (evaluate_and_loop es ctx seen = none ↔
      ((seen = true ∨ ∃ x ∈ es, (x.evaluate_value ctx).bind coerce_bool = none) ∧
       ∀ x ∈ es, (x.evaluate_value ctx).bind coerce_bool ≠ some false)) ∧
    (evaluate_and_loop es ctx seen = some (.bool true) ↔
      (seen = false ∧ ∀ x ∈ es, (x.evaluate_value ctx).bind coerce_bool = some true)) := by
  intro es
  induction es with
  | nil =>
    intro seen
    cases seen <;> simp [evaluate_and_loop]
  | cons e rest ih =>
    intro seen
    obtain ⟨ih1t, ih2t, ih3t⟩ := ih true
    obtain ⟨ih1, ih2, ih3⟩ := ih seen
    cases hb : (Expr.evaluate_value e ctx).bind coerce_bool with
    | none =>
      simp only [evaluate_and_loop, hb]
      refine ⟨?_, ?_, ?_⟩
      · rw [ih1t]
        simp only [List.exists_mem_cons_iff, List.forall_mem_cons, hb]
        try simp
        try tauto
      · rw [ih2t]
        simp only [List.exists_mem_cons_iff, List.forall_mem_cons, hb]
        try simp
        try tauto
      · rw [ih3t]
        simp only [List.exists_mem_cons_iff, List.forall_mem_cons, hb]
        try simp
        try tauto
    | some b =>
      cases b with
      | false =>
        simp only [evaluate_and_loop, hb]
        refine ⟨?_, ?_, ?_⟩
        · simp only [List.exists_mem_cons_iff, List.forall_mem_cons, hb]
          try simp
          try tauto
        · simp only [List.exists_mem_cons_iff, List.forall_mem_cons, hb]
          try simp
          try tauto
        · simp only [List.exists_mem_cons_iff, List.forall_mem_cons, hb]
          try simp
          try tauto
      | true =>
        simp only [evaluate_and_loop, hb]
        refine ⟨?_, ?_, ?_⟩
        · rw [ih1]
          simp only [List.exists_mem_cons_iff, List.forall_mem_cons, hb]
          try simp
          try tauto
        · rw [ih2]
          simp only [List.exists_mem_cons_iff, List.forall_mem_cons, hb]
          try simp
          try tauto
        · rw [ih3]
          simp only [List.exists_mem_cons_iff, List.forall_mem_cons, hb]
          try simp
          try tauto

/-- Characterisation of the `evaluate_or` loop, dual to
`evaluate_and_loop_spec`. -/
theorem evaluate_or_loop_spec (ctx : Json) : ∀ (es : List Expr) (seen : Bool),
    (evaluate_or_loop es ctx seen = some (.bool true) ↔
      ∃ x ∈ es, (x.evaluate_value ctx).bind coerce_bool = some true) ∧
    (evaluate_or_loop es ctx seen = none ↔
      ((seen = true ∨ ∃ x ∈ es, (x.evaluate_value ctx).bind coerce_bool = none) ∧
       ∀ x ∈ es, (x.evaluate_value ctx).bind coerce_bool ≠ some true)) ∧
    (evaluate_or_loop es ctx seen = some (.bool false) ↔
      (seen = false ∧ ∀ x ∈ es, (x.evaluate_value ctx).bind coerce_bool = some false)) := by
  intro es
  induction es with
  | nil =>
    intro seen
    cases seen <;> simp [evaluate_or_loop]
  | cons e rest ih =>
    intro seen
    obtain ⟨ih1t, ih2t, ih3t⟩ := ih true
    obtain ⟨ih1, ih2, ih3⟩ := ih seen
    cases hb : (Expr.evaluate_value e ctx).bind coerce_bool with
    | none =>
      simp only [evaluate_or_loop, hb]
      refine ⟨?_, ?_, ?_⟩
      · rw [ih1t]
        simp only [List.exists_mem_cons_iff, List.forall_mem_cons, hb]
        try simp
        try tauto
      · rw [ih2t]
        simp only [List.exists_mem_cons_iff, List.forall_mem_cons, hb]
        try simp
        try tauto
      · rw [ih3t]
        simp only [List.exists_mem_cons_iff, List.forall_mem_cons, hb]
        try simp
        try tauto
    | some b =>
      cases b with
      | true =>
        simp only [evaluate_or_loop, hb]
        refine ⟨?_, ?_, ?_⟩
        · simp only [List.exists_mem_cons_iff, List.forall_mem_cons, hb]
          try simp
          try tauto
        · simp only [List.exists_mem_cons_iff, List.forall_mem_cons, hb]
          try simp
          try tauto
        · simp only [List.exists_mem_cons_iff, List.forall_mem_cons, hb]
          try simp
          try tauto
      | false =>
        simp only [evaluate_or_loop, hb]
        refine ⟨?_, ?_, ?_⟩
        · rw [ih1]
          simp only [List.exists_mem_cons_iff, List.forall_mem_cons, hb]
          try simp
          try tauto
        · rw [ih2]
          simp only [List.exists_mem_cons_iff, List.forall_mem_cons, hb]
          try simp
          try tauto
        · rw [ih3]
          simp only [List.exists_mem_cons_iff, List.forall_mem_cons, hb]
          try simp
          try tauto

/-- The `evaluate_and` loop only ever produces `false`, `none` or `true`. -/
theorem evaluate_and_loop_cases (ctx : Json) : ∀ (es : List Expr) (seen : Bool),
    evaluate_and_loop es ctx seen = some (.bool false) ∨
    evaluate_and_loop es ctx seen = none ∨
    evaluate_and_loop es ctx seen = some (.bool true) := by
  intro es
  induction es with
  | nil =>
    intro seen
    cases seen <;> simp [evaluate_and_loop]
  | cons e rest ih =>
    intro seen
    cases hb : (Expr.evaluate_value e ctx).bind coerce_bool with
    | none => simpa [evaluate_and_loop, hb] using ih true
    | some b =>
      cases b with
      | false => simp [evaluate_and_loop, hb]
      | true => simpa [evaluate_and_loop, hb] using ih seen

/-- The `evaluate_or` loop only ever produces `true`, `none` or `false`. -/
theorem evaluate_or_loop_cases (ctx : Json) : ∀ (es : List Expr) (seen : Bool),
    evaluate_or_loop es ctx seen = some (.bool true) ∨
    evaluate_or_loop es ctx seen = none ∨
    evaluate_or_loop es ctx seen = some (.bool false) := by
  intro es
  induction es with
  | nil =>
    intro seen
    cases seen <;> simp [evaluate_or_loop]
  | cons e rest ih =>
    intro seen
    cases hb : (Expr.evaluate_value e ctx).bind coerce_bool with
    | none => simpa [evaluate_or_loop, hb] using ih true
    | some b =>
      cases b with
      | true => simp [evaluate_or_loop, hb]
      | false => simpa [evaluate_or_loop, hb] using ih seen

/-- C4: `And` yields one of `false`/`none`/`true`: `false` exactly when
some subexpression's boolean value is `false` (a `None` elsewhere does not
mask it), `none` exactly when some subexpression is `None` and none is
`false`, and `true` otherwise (all `true`); `Or` is the dual with `true`
dominating; `Not` is `None` exactly when its operand's boolean evaluation
is. -/
theorem C4_logical_ops (es : List Expr) (e : Expr) (ctx : Json) :
    ((Expr.and es).evaluate_value ctx = some (.bool false) ∨
     (Expr.and es).evaluate_value ctx = none ∨
     (Expr.and es).evaluate_value ctx = some (.bool true)) ∧
    ((Expr.or es).evaluate_value ctx = some (.bool true) ∨
     (Expr.or es).evaluate_value ctx = none ∨
     (Expr.or es).evaluate_value ctx = some (.bool false)) ∧
    ((Expr.and es).evaluate_value ctx = some (.bool false) ↔
      ∃ x ∈ es, x.evaluate_bool ctx = some false) ∧
    ((Expr.and es).evaluate_value ctx = none ↔
      ((∃ x ∈ es, x.evaluate_bool ctx = none) ∧
       ∀ x ∈ es, x.evaluate_bool ctx ≠ some false)) ∧
    ((Expr.and es).evaluate_value ctx = some (.bool true) ↔
      ∀ x ∈ es, x.evaluate_bool ctx = some true) ∧
    ((Expr.or es).evaluate_value ctx = some (.bool true) ↔
      ∃ x ∈ es, x.evaluate_bool ctx = some true) ∧
    ((Expr.or es).evaluate_value ctx = none ↔
      ((∃ x ∈ es, x.evaluate_bool ctx = none) ∧
       ∀ x ∈ es, x.evaluate_bool ctx ≠ some true)) ∧
    ((Expr.or es).evaluate_value ctx = some (.bool false) ↔
      ∀ x ∈ es, x.evaluate_bool ctx = some false) ∧
    ((Expr.not e).evaluate_value ctx = none ↔ e.evaluate_bool ctx = none) := by
  obtain ⟨ha1, ha2, ha3⟩ := evaluate_and_loop_spec ctx es false
  obtain ⟨ho1, ho2, ho3⟩ := evaluate_or_loop_spec ctx es false
  simp only [Expr.evaluate_bool]
  refine ⟨?_, ?_, ?_, ?_, ?_, ?_, ?_, ?_, ?_⟩
  · exact evaluate_and_loop_cases ctx es false
  · exact evaluate_or_loop_cases ctx es false
  · rw [show (Expr.and es).evaluate_value ctx = evaluate_and_loop es ctx false from rfl, ha1]
  · rw [show (Expr.and es).evaluate_value ctx = evaluate_and_loop es ctx false from rfl, ha2]
    simp
  · rw [show (Expr.and es).evaluate_value ctx = evaluate_and_loop es ctx false from rfl, ha3]
    simp
  · rw [show (Expr.or es).evaluate_value ctx = evaluate_or_loop es ctx false from rfl, ho1]
  · rw [show (Expr.or es).evaluate_value ctx = evaluate_or_loop es ctx false from rfl, ho2]
    simp
  · rw [show (Expr.or es).evaluate_value ctx = evaluate_or_loop es ctx false from rfl, ho3]
    simp
  · rw [show (Expr.not e).evaluate_value ctx =
      ((Expr.evaluate_value e ctx).bind coerce_bool).map (fun b => .bool !b) from rfl]
    simp

/-- Under the default progress policy, a question is answered exactly when
the answer map holds its id. -/
theorem is_answered_default (q : QuestionSpec) (ctx : ProgressContext) :
    is_answered q ctx (some progress_policy_default) = list_contains ctx.answers q.id := by
  unfold is_answered progress_policy_default
  by_cases hc : list_contains ctx.answers q.id <;> simp [hc]

/-- The default policy's `skip_answered` flag is on. -/
theorem progress_policy_default_skip_answered :
    progress_policy_default.skip_answered = true := rfl

/-- C6: without a `progress_policy` the default applies, and
`next_question` returns the first question in authored order that is
visible, whose id is present in none of its `skip_if_present_in` targets,
and whose id is not an answer-map key — `none` when no such question
exists. -/
theorem C6_next_question_default_policy (spec : FormSpec) (ctx : ProgressContext)
    (visibility : VisibilityMap) (h : spec.progress_policy = none) :
    next_question spec ctx visibility = next_question_spec_default spec ctx visibility := by
  unfold next_question next_question_spec_default
  rw [h]
  simp only [Option.getD_none]
  generalize spec.questions = qs
  induction qs with
  | nil => rfl
  | cons q rest ih =>
    by_cases hv : ((list_get visibility q.id).getD true) = true
    · by_cases ht : (q.policy.skip_if_present_in.any fun target => has_target ctx target q.id) = true
      · simp [next_question_loop, List.find?, should_skip, hv, ht, ih]
      · by_cases hc : list_contains ctx.answers q.id = true
        · simp [next_question_loop, List.find?, should_skip, is_answered_default,
            progress_policy_default_skip_answered, hv, ht, hc, ih]
        · simp [next_question_loop, List.find?, should_skip, is_answered_default,
            progress_policy_default_skip_answered, hv, ht, hc]
    · simp only [Bool.not_eq_true] at hv
      simp [next_question_loop, List.find?, hv, ih]

/-- Witness for C6: two string questions, the first answered; both sides
pick the second. -/
theorem C6_next_question_default_policy_witness :
    next_question { empty_form "f" with questions := [base_question "q1" .string, base_question "q2" .string] }
      (progress_context_new (.obj [("q1", .str "x")]) .null) [] =
    next_question_spec_default { empty_form "f" with questions := [base_question "q1" .string, base_question "q2" .string] }
      (progress_context_new (.obj [("q1", .str "x")]) .null) [] :=
  C6_next_question_default_policy _ _ _ rfl

/-- C5 counterexample: for the spec whose only question `q1` is computed
from `IsSet("q1")` (not overridable), one application of
`apply_computed_answers` to the empty answer map yields `{q1: false}`, a
second yields `{q1: true}` — the function is not idempotent. -/
theorem C5_counterexample :
    apply_computed_answers c5_spec (apply_computed_answers c5_spec (.obj [])) ≠
      apply_computed_answers c5_spec (.obj []) := by
  intro h
  have h1 : apply_computed_answers c5_spec (.obj []) = .obj [("q1", .bool false)] := rfl
  have h2 : apply_computed_answers c5_spec (apply_computed_answers c5_spec (.obj [])) =
      .obj [("q1", .bool true)] := rfl
  rw [h2, h1] at h
  simp at h

/-- A fold of `computed_step` over questions that are all skipped (computed
implies overridable and already present) leaves the map unchanged. -/
theorem computed_fold_fixed (qs : List QuestionSpec) (m : List (String × Json))
    (h : ∀ q ∈ qs, q.computed.isSome →
      (q.computed_overridable = true ∧ list_contains m q.id = true)) :
    qs.foldl computed_step m = m := by
  induction qs with
  | nil => rfl
  | cons q rest ih =>
    have hstep : computed_step m q = m := by
      unfold computed_step
      cases hc : q.computed with
      | none => rfl
      | some expr =>
        obtain ⟨hov, hmem⟩ := h q (by simp) (by simp [hc])
        simp [hmem, hov]
    rw [List.foldl_cons, hstep]
    exact ih fun q' hq' hc' => h q' (by simp [hq']) hc'

/-- C5 (amended): `apply_computed_answers` is idempotent whenever every
computed question is `computed_overridable` and its id is present in the
once-computed map (its expression produced a value); in general (a computed
expression may observe its own or a later question's output) it is not. -/
theorem C5_computed_idempotent (spec : FormSpec) (answers : Json)
    (hov : ∀ q ∈ spec.questions, q.computed.isSome → q.computed_overridable = true)
    (hsome : ∀ q ∈ spec.questions, q.computed.isSome →
      list_contains (apply_computed_answers spec answers).asObjFields q.id = true) :
    apply_computed_answers spec (apply_computed_answers spec answers) =
      apply_computed_answers spec answers := by
  have hfold : (apply_computed_answers spec answers).asObjFields =
      spec.questions.foldl computed_step answers.asObjFields := by
    unfold apply_computed_answers
    rfl
  show Json.obj (spec.questions.foldl computed_step
    (apply_computed_answers spec answers).asObjFields) = _
  rw [computed_fold_fixed spec.questions _
    (fun q hq hc => ⟨hov q hq hc, hsome q hq hc⟩)]
  rw [hfold]
  rfl

/-- Witness for C5 (amended): an overridable constant-computed question. -/
theorem C5_computed_idempotent_witness :
    apply_computed_answers c5_ok_spec (apply_computed_answers c5_ok_spec (.obj [])) =
      apply_computed_answers c5_ok_spec (.obj []) :=
  C5_computed_idempotent c5_ok_spec (.obj []) (by decide) (by decide)

/-- C8 counterexample: the enum-membership check only runs for `Enum`-kind
questions.  A visible `String`-kind question with `choices = ["a"]` and the
answer `"c"` (a string not in the choices) validates cleanly — no
`enum_mismatch` error is produced. -/
theorem C8_counterexample :
    validate c8_string_spec (.obj [("q1", .str "c")]) =
      { valid := true, errors := [], missing_required := [], unknown_fields := [] } ∧
    ¬ ∃ err ∈ (validate c8_string_spec (.obj [("q1", .str "c")])).errors,
      err.code = some "enum_mismatch" := by
  have hvv : validate_value c8_string_question (.str "c") = none := by
    simp [validate_value, c8_string_question, matches_type, QuestionSpec.kind,
      QuestionSpec.constraint, QuestionSpec.choices, Json.is_string, Json.as_str]
  have hid : c8_string_question.id = "q1" := rfl
  have hreq : c8_string_question.required = false := rfl
  have hcomp : c8_string_question.computed = none := rfl
  have hvisi : c8_string_question.visible_if = none := rfl
  have h : validate c8_string_spec (.obj [("q1", .str "c")]) =
      { valid := true, errors := [], missing_required := [], unknown_fields := [] } := by
    unfold validate
    simp [validate_questions_loop, cross_field_errors, hvv, hid, hreq, hcomp, hvisi,
      c8_string_spec, empty_form, apply_computed_answers, computed_step,
      resolve_visibility, build_expression_context, Json.asObjFields, list_get,
      list_insert, list_contains]
  refine ⟨h, ?_⟩
  rintro ⟨err, hmem, -⟩
  rw [h] at hmem
  simp at hmem

/-- `validate_value` reports `enum_mismatch` for an enum question whose
string value is not among the choices (and whose constraint is absent). -/
theorem validate_value_enum_mismatch (q : QuestionSpec) (s : String)
    (choices : List String) (hkind : q.kind = .enum) (hch : q.choices = some choices)
    (hcon : q.constraint = none) (hmem : s ∉ choices) :
    validate_value q (.str s) =
      some (base_error q "invalid enum option" "enum_mismatch") := by
  unfold validate_value
  simp [matches_type, hkind, hch, hcon, Json.is_string, Json.as_str, hmem]

/-- An error produced for a member of the question list lands in the
per-question error vector. -/
theorem validate_loop_mem (visibility : VisibilityMap)
    (answers_map : List (String × Json)) (qs : List QuestionSpec) (q : QuestionSpec)
    (v : Json) (err : ValidationError) (hq : q ∈ qs)
    (hvis : (list_get visibility q.id).getD true = true)
    (hval : list_get answers_map q.id = some v)
    (herr : validate_value q v = some err) :
    err ∈ (validate_questions_loop visibility answers_map qs).1 := by
  induction qs with
  | nil => cases hq
  | cons q0 rest ih =>
    rcases List.mem_cons.mp hq with h | h
    · subst h
      simp only [validate_questions_loop]
      simp [hvis, hval, herr]
    · simp only [validate_questions_loop]
      simp only [List.mem_append]
      exact Or.inr (ih h)

/-- C8 (amended): for every visible question of kind `Enum` whose choices
list is present, whose constraint is absent, and whose (computed) answer
value is a string not contained in the choices, `validate` reports an
error carrying code `enum_mismatch` for that question. -/
theorem C8_enum_mismatch (spec : FormSpec) (answers : Json) (q : QuestionSpec)
    (s : String) (choices : List String) (hq : q ∈ spec.questions)
    (hkind : q.kind = .enum) (hch : q.choices = some choices)
    (hcon : q.constraint = none)
    (hvis : (list_get (resolve_visibility spec (apply_computed_answers spec answers)
      .visible) q.id).getD true = true)
    (hval : list_get (apply_computed_answers spec answers).asObjFields q.id =
      some (.str s))
    (hmem : s ∉ choices) :
    ∃ err ∈ (validate spec answers).errors,
      err.question_id = some q.id ∧ err.code = some "enum_mismatch" := by
  have herr := validate_value_enum_mismatch q s choices hkind hch hcon hmem
  have hm := validate_loop_mem
    (resolve_visibility spec (apply_computed_answers spec answers) .visible)
    (apply_computed_answers spec answers).asObjFields
    spec.questions q (.str s) _ hq hvis hval herr
  refine ⟨base_error q "invalid enum option" "enum_mismatch", ?_, rfl, rfl⟩
  unfold validate
  simp only [List.mem_append]
  exact Or.inl hm

/-- Witness for C8 (amended): an enum question with choices `["a","b"]`
and answer `"c"`. -/
theorem C8_enum_mismatch_witness :
    ∃ err ∈ (validate c8_enum_spec (.obj [("q1", .str "c")])).errors,
      err.question_id = some c8_enum_question.id ∧ err.code = some "enum_mismatch" :=
  C8_enum_mismatch c8_enum_spec (.obj [("q1", .str "c")]) c8_enum_question "c"
    ["a", "b"] (by simp [c8_enum_spec, empty_form]) rfl rfl rfl (by rfl) (by rfl)
    (by decide)

/-- An empty prefix leaves a question unchanged. -/
theorem apply_prefix_question_nil (q : QuestionSpec) : apply_prefix_question q "" = q := by
  unfold apply_prefix_question
  simp

/-- The question loop of `expand_form` succeeds when the prefixed ids are
distinct and disjoint from the seen set, prepending them (reversed) to it. -/
theorem insert_questions_ok (pfx : String) (qs : List QuestionSpec) :
    ∀ seen : List String,
    (qs.map (fun q => (apply_prefix_question q pfx).id)).Nodup →
    (∀ i ∈ qs.map (fun q => (apply_prefix_question q pfx).id), i ∉ seen) →
    insert_questions pfx qs seen =
      .ok (qs.map (fun q => apply_prefix_question q pfx),
           (qs.map (fun q => (apply_prefix_question q pfx).id)).reverse ++ seen) := by
  induction qs with
  | nil =>
    intro seen _ _
    rfl
  | cons q rest ih =>
    intro seen hnodup hdis
    simp only [List.map_cons, List.nodup_cons] at hnodup
    have hq_seen : (apply_prefix_question q pfx).id ∉ seen := hdis _ (by simp)
    have hcont : seen.contains (apply_prefix_question q pfx).id = false := by
      simpa using hq_seen
    have hdis2 : ∀ i ∈ rest.map (fun q => (apply_prefix_question q pfx).id),
        i ∉ (apply_prefix_question q pfx).id :: seen := by
      intro i hi
      simp only [List.mem_cons, not_or]
      exact ⟨fun he => hnodup.1 (he ▸ hi), hdis i (by simp [hi])⟩
    simp only [insert_questions, hcont]
    rw [ih _ hnodup.2 hdis2]
    simp

/-- Re-entering a form whose id heads a two-element chain reports the
three-element cycle, whatever the remaining fuel, prefix and seen set. -/
theorem expand_form_reenter (a : FormSpec) (bid : String)
    (registry : List (String × FormSpec)) :
    ∀ (f : Nat) (pfx2 : String) (seen2 : List String),
    expand_form_fuel f a pfx2 registry [a.id, bid] seen2 =
      .error (.includeCycleDetected [a.id, bid, a.id]) := by
  intro f pfx2 seen2
  unfold expand_form_fuel
  simp [List.indexOf_cons_self]

/-- C7 counterexample: two mutually-including forms where the root carries
a duplicate question id.  Expansion reports `DuplicateQuestionId`, not the
`IncludeCycleDetected` chain the claim promises for every such pair. -/
theorem C7_counterexample :
    expand_includes c7_dup_a [("a", c7_dup_a), ("b", c7_b)] =
      .error (.duplicateQuestionId "x") ∧
    expand_includes c7_dup_a [("a", c7_dup_a), ("b", c7_b)] ≠
      .error (.includeCycleDetected ["a", "b", "a"]) := by
  have hins : insert_questions "" c7_dup_a.questions [] =
      .error (.duplicateQuestionId "x") := rfl
  have hstep : ∀ f : Nat,
      expand_form_fuel (f + 1) c7_dup_a "" [("a", c7_dup_a), ("b", c7_b)] [] [] =
        .error (.duplicateQuestionId "x") := by
    intro f
    unfold expand_form_fuel
    simp [hins]
  have h : expand_includes c7_dup_a [("a", c7_dup_a), ("b", c7_b)] =
      .error (.duplicateQuestionId "x") := by
    unfold expand_includes
    rw [show ([("a", c7_dup_a), ("b", c7_b)] : List (String × FormSpec)).length + 1 =
      2 + 1 from rfl]
    rw [hstep 2]
  refine ⟨h, ?_⟩
  rw [h]
  simp

/-- C7 (amended): for forms `a`, `b` with distinct ids that include each
other (and nothing else), registered under their own ids, and whose
question ids — `a`'s as authored, `b`'s after prefixing — are pairwise
distinct, `expand_includes` reports `IncludeCycleDetected` with chain
exactly `[a.id, b.id, a.id]`. -/
theorem C7_include_cycle (a b : FormSpec) (pa pb : Option String)
    (hinca : a.includes = [⟨b.id, pb⟩])
    (hincb : b.includes = [⟨a.id, pa⟩])
    (hne : a.id ≠ b.id)
    (hnodup : ((a.questions.map QuestionSpec.id) ++
      (b.questions.map (fun q =>
        (apply_prefix_question q (combine_prefix_parts "" pb)).id))).Nodup) :
    expand_includes a [(a.id, a), (b.id, b)] =
      .error (.includeCycleDetected [a.id, b.id, a.id]) := by
  rw [List.nodup_append] at hnodup
  obtain ⟨hna, hnb, hdisj⟩ := hnodup
  have hpfx0 : (fun q => (apply_prefix_question q "").id) = QuestionSpec.id := by
    funext q
    rw [apply_prefix_question_nil]
  have hinsA : insert_questions "" a.questions [] =
      .ok (a.questions, (a.questions.map QuestionSpec.id).reverse) := by
    rw [insert_questions_ok "" a.questions [] (by rw [hpfx0]; exact hna)
      (by simp)]
    rw [hpfx0]
    simp [show (fun q => apply_prefix_question q "") = fun q => q from
      funext fun q => apply_prefix_question_nil q]
  have hinsB : insert_questions (combine_prefix_parts "" pb) b.questions
      ((a.questions.map QuestionSpec.id).reverse) =
      .ok (b.questions.map (fun q => apply_prefix_question q (combine_prefix_parts "" pb)),
           (b.questions.map (fun q =>
             (apply_prefix_question q (combine_prefix_parts "" pb)).id)).reverse ++
             (a.questions.map QuestionSpec.id).reverse) := by
    refine insert_questions_ok _ _ _ hnb ?_
    intro i hi
    simp only [List.mem_reverse]
    intro hia
    exact hdisj hia hi
  have hcyc := expand_form_reenter a b.id [(a.id, a), (b.id, b)]
  have hb2 : ∀ f : Nat,
      expand_form_fuel (f + 1) b (combine_prefix_parts "" pb) [(a.id, a), (b.id, b)]
        [a.id] ((a.questions.map QuestionSpec.id).reverse) =
        .error (.includeCycleDetected [a.id, b.id, a.id]) := by
    intro f
    unfold expand_form_fuel
    have hne' : ¬ b.id = a.id := fun h => hne h.symm
    have hc : ([a.id].contains b.id) = false := by
      simp [hne']
    rw [hc]
    simp only [Bool.false_eq_true, if_false, hinsB, hincb]
    unfold expand_includes_loop
    simp [list_get, hcyc f]
  have ha1 : ∀ g : Nat,
      expand_form_fuel (g + 1 + 1) a "" [(a.id, a), (b.id, b)] [] [] =
        .error (.includeCycleDetected [a.id, b.id, a.id]) := by
    intro g
    unfold expand_form_fuel
    simp only [List.contains_nil, Bool.false_eq_true, if_false, hinsA, hinca]
    unfold expand_includes_loop
    simp [list_get, hne, hb2 g]
  unfold expand_includes
  rw [show ([(a.id, a), (b.id, b)] : List (String × FormSpec)).length + 1 =
    1 + 1 + 1 from rfl]
  rw [ha1 1]

/-- Witness for C7 (amended): the two empty mutually-including forms. -/
theorem C7_include_cycle_witness :
    expand_includes c7_a [("a", c7_a), ("b", c7_b)] =
      .error (.includeCycleDetected ["a", "b", "a"]) :=
  C7_include_cycle c7_a c7_b none none rfl rfl (by decide) (by decide)

end QaSpec
